import Mathlib

/-!
Shallow embedding of the Python binding layer of the goupil Monte Carlo
photon transport engine (src/python/transport.rs, src/python/geometry.rs,
src/python/numpy.rs).  Machine floats are modelled as exact rationals;
IEEE infinity and NaN are represented explicitly where the code relies on
them.  Components of the engine that live outside these binding sources
(the core tracer, the material registry, the physics agent, the message
pack codec) are modelled abstractly, as parameters of the embedded
functions, or from the specification where noted.
-/

namespace Goupil

-- ===========================================================================
-- Transport settings (src/python/transport.rs, PyTransportSettings).
-- ===========================================================================

/-- Transport mode enumeration (core crate, used by the binding setters). -/
inductive TransportMode where
  | Forward
  | Backward
deriving DecidableEq

/-- Compton mode enumeration. -/
inductive ComptonMode where
  | None
  | Direct
  | Adjoint
  | Inverse
deriving DecidableEq

/-- Compton sampling method enumeration. -/
inductive ComptonMethod where
  | RejectionSampling
  | InverseTransform
deriving DecidableEq

/-- Absorption mode; the binding treats it as an optional enumerator. -/
inductive AbsorptionMode where
  | None
  | Discrete
deriving DecidableEq

/-- Rayleigh mode enumeration. -/
inductive RayleighMode where
  | None
  | FormFactor
deriving DecidableEq

/-- Transport boundary condition. -/
inductive TransportBoundary where
  | None
  | Sector (index : Nat)
deriving DecidableEq

/-- Compton model identifier; an enumerated string in the core crate, kept
abstract here since its values do not affect the binding logic. -/
abbrev ComptonModel := String

/-- Inner transport settings record (core crate TransportSettings, fields as
read and written by the binding setters). -/
structure TransportSettings where
  mode : TransportMode
  absorption : AbsorptionMode
  boundary : TransportBoundary
  compton_method : ComptonMethod
  compton_mode : ComptonMode
  compton_model : ComptonModel
  rayleigh : RayleighMode
  energy_min : Option ℚ
  energy_max : Option ℚ
  length_max : Option ℚ
  constraint : Option ℚ
deriving DecidableEq

/-- Python wrapper state: the inner settings plus the volume_sources flag
(PyTransportSettings in src/python/transport.rs). -/
structure PyTransportSettings where
  inner : TransportSettings
  volume_sources : Bool
deriving DecidableEq

/-- Setter for mode (PyTransportSettings::set_mode): assigns the mode, then
coerces compton_mode: Backward turns Direct into Adjoint; Forward turns
Adjoint or Inverse into Direct. -/
def set_mode (s : PyTransportSettings) (value : TransportMode) : PyTransportSettings :=
  let inner := { s.inner with mode := value }
  let inner :=
    match inner.mode with
    | .Backward =>
      match inner.compton_mode with
      | .Direct => { inner with compton_mode := .Adjoint }
      | _ => inner
    | .Forward =>
      match inner.compton_mode with
      | .Adjoint => { inner with compton_mode := .Direct }
      | .Inverse => { inner with compton_mode := .Direct }
      | _ => inner
  { s with inner := inner }

/-- Setter for compton_mode (PyTransportSettings::set_compton_mode): assigns
the mode, then coerces: Adjoint forces Backward, Direct forces Forward,
Inverse forces Backward and compton_method := InverseTransform. -/
def set_compton_mode (s : PyTransportSettings) (value : ComptonMode) : PyTransportSettings :=
  let inner := { s.inner with compton_mode := value }
  let inner :=
    match inner.compton_mode with
    | .Adjoint => { inner with mode := .Backward }
    | .Direct => { inner with mode := .Forward }
    | .Inverse => { inner with mode := .Backward, compton_method := .InverseTransform }
    | .None => inner
  { s with inner := inner }

/-- Setter for compton_method (PyTransportSettings::set_compton_method):
plain assignment, with no coercion of any other field. -/
def set_compton_method (s : PyTransportSettings) (value : ComptonMethod) : PyTransportSettings :=
  { s with inner := { s.inner with compton_method := value } }

/-- Setter for compton_model: plain assignment. -/
def set_compton_model (s : PyTransportSettings) (value : ComptonModel) : PyTransportSettings :=
  { s with inner := { s.inner with compton_model := value } }

/-- Setter for volume_sources (PyTransportSettings::set_volume_sources): a
missing argument counts as false; true initialises constraint to 1.0 and
false nulls it. -/
def set_volume_sources (s : PyTransportSettings) (value : Option Bool) : PyTransportSettings :=
  let value := value.getD false
  let s := { s with volume_sources := value }
  if value then
    { s with inner := { s.inner with constraint := some 1 } }
  else
    { s with inner := { s.inner with constraint := none } }

/-- Setter for absorption: plain assignment. -/
def set_absorption (s : PyTransportSettings) (value : AbsorptionMode) : PyTransportSettings :=
  { s with inner := { s.inner with absorption := value } }

/-- Setter for boundary: plain assignment through the optional index. -/
def set_boundary (s : PyTransportSettings) (value : Option Nat) : PyTransportSettings :=
  match value with
  | none => { s with inner := { s.inner with boundary := .None } }
  | some index => { s with inner := { s.inner with boundary := .Sector index } }

/-- Setter for rayleigh: a missing argument counts as false. -/
def set_rayleigh (s : PyTransportSettings) (value : Option Bool) : PyTransportSettings :=
  if value.getD false then
    { s with inner := { s.inner with rayleigh := .FormFactor } }
  else
    { s with inner := { s.inner with rayleigh := .None } }

/-- Setter for energy_min: plain assignment. -/
def set_energy_min (s : PyTransportSettings) (value : Option ℚ) : PyTransportSettings :=
  { s with inner := { s.inner with energy_min := value } }

/-- Setter for energy_max: plain assignment. -/
def set_energy_max (s : PyTransportSettings) (value : Option ℚ) : PyTransportSettings :=
  { s with inner := { s.inner with energy_max := value } }

/-- Setter for length_max: plain assignment. -/
def set_length_max (s : PyTransportSettings) (value : Option ℚ) : PyTransportSettings :=
  { s with inner := { s.inner with length_max := value } }

/-- One call to a setter of PyTransportSettings, with its argument. -/
inductive SetterCall where
  | mode (value : TransportMode)
  | absorption (value : AbsorptionMode)
  | boundary (value : Option Nat)
  | compton_method (value : ComptonMethod)
  | compton_mode (value : ComptonMode)
  | compton_model (value : ComptonModel)
  | volume_sources (value : Option Bool)
  | rayleigh (value : Option Bool)
  | energy_min (value : Option ℚ)
  | energy_max (value : Option ℚ)
  | length_max (value : Option ℚ)
deriving DecidableEq

/-- Apply one setter call. -/
def applySetter (s : PyTransportSettings) : SetterCall → PyTransportSettings
  | .mode v => set_mode s v
  | .absorption v => set_absorption s v
  | .boundary v => set_boundary s v
  | .compton_method v => set_compton_method s v
  | .compton_mode v => set_compton_mode s v
  | .compton_model v => set_compton_model s v
  | .volume_sources v => set_volume_sources s v
  | .rayleigh v => set_rayleigh s v
  | .energy_min v => set_energy_min s v
  | .energy_max v => set_energy_max s v
  | .length_max v => set_length_max s v

/-- Apply a sequence of setter calls, left to right. -/
def applySetters (s : PyTransportSettings) (calls : List SetterCall) : PyTransportSettings :=
  calls.foldl applySetter s

/-- The full transport-settings invariant as stated by the claim:
Backward excludes Direct Compton; Forward allows only Direct or None;
Inverse Compton forces the InverseTransform method and Backward mode; the
volume_sources flag mirrors non-nullity of the constraint. -/
def settingsClaimInv (s : PyTransportSettings) : Prop :=
  (s.inner.mode = .Backward → s.inner.compton_mode ≠ .Direct)
  ∧ (s.inner.mode = .Forward →
      s.inner.compton_mode = .Direct ∨ s.inner.compton_mode = .None)
  ∧ (s.inner.compton_mode = .Inverse →
      s.inner.compton_method = .InverseTransform ∧ s.inner.mode = .Backward)
  ∧ (s.volume_sources = s.inner.constraint.isSome)

/-- The part of the invariant that the setters actually maintain: everything
except persistence of the compton_method link. -/
def settingsInv (s : PyTransportSettings) : Prop :=
  (s.inner.mode = .Backward → s.inner.compton_mode ≠ .Direct)
  ∧ (s.inner.mode = .Forward →
      s.inner.compton_mode = .Direct ∨ s.inner.compton_mode = .None)
  ∧ (s.inner.compton_mode = .Inverse → s.inner.mode = .Backward)
  ∧ (s.volume_sources = s.inner.constraint.isSome)

instance (s : PyTransportSettings) : Decidable (settingsClaimInv s) := by
  unfold settingsClaimInv; infer_instance

instance (s : PyTransportSettings) : Decidable (settingsInv s) := by
  unfold settingsInv; infer_instance

/-- A concrete settings state that satisfies the full claimed invariant
(Forward mode with Direct Compton and rejection sampling, volume sources
enabled with constraint 1.0, matching the state built by the constructor). -/
def c1start : PyTransportSettings :=
  { inner :=
    { mode := .Forward
      absorption := .None
      boundary := .None
      compton_method := .RejectionSampling
      compton_mode := .Direct
      compton_model := "KleinNishina"
      rayleigh := .None
      energy_min := none
      energy_max := none
      length_max := none
      constraint := some 1 }
    volume_sources := true }

-- ===========================================================================
-- Common data types of the batch drivers (src/python/transport.rs,
-- src/python/geometry.rs, src/python/numpy.rs).
-- ===========================================================================

/-- Three-vector of exact rationals standing for the float 3-vectors. -/
abbrev Vec3 := ℚ × ℚ × ℚ

/-- C representation of a photon state (CState in src/python/transport.rs):
10 floats laid out as energy, position, direction, length, weight. -/
structure CState where
  energy : ℚ
  position : Vec3
  direction : Vec3
  length : ℚ
  weight : ℚ
deriving DecidableEq

/-- Python-level errors raised by the binding layer, kept distinct from the
TransportStatus terminating codes.  keyboardInterrupt is what ctrlc_catched
raises when the host cancellation probe signals. -/
inductive Err where
  | valueError (msg : String)
  | typeError (msg : String)
  | keyboardInterrupt
deriving DecidableEq

/-- Terminal status codes of one photon (TransportStatus). -/
inductive TransportStatus where
  | Absorbed
  | Boundary
  | EnergyConstraint
  | EnergyMax
  | EnergyMin
  | Exit
  | LengthMax
deriving DecidableEq

/-- Scalar-or-array argument (ArrayOrFloat in src/python/numpy.rs). -/
inductive ArrayOrFloat where
  | array (values : List ℚ)
  | float (value : ℚ)
deriving DecidableEq

/-- ArrayOrFloat::size. -/
def ArrayOrFloat.size : ArrayOrFloat → Nat
  | .array xs => xs.length
  | .float _ => 1

/-- ArrayOrFloat::get: element access, an index error past the end. -/
def ArrayOrFloat.get : ArrayOrFloat → Nat → Except Err ℚ
  | .array xs, i =>
    match xs[i]? with
    | some v => .ok v
    | none => .error (.valueError "ndarray index out of range")
  | .float v, _ => .ok v

/-- ArrayOrFloat::is_float. -/
def ArrayOrFloat.isFloat : ArrayOrFloat → Bool
  | .array _ => false
  | .float _ => true

/-- A float that may be IEEE plus-infinity, as used for the remaining length
budget of the trace driver (initialised to Float::INFINITY when no lengths
argument is given). -/
inductive Fl where
  | inf
  | fin (x : ℚ)
deriving DecidableEq

/-- Subtraction of a finite float from a possibly infinite one (IEEE
semantics on the values reachable in the trace loop). -/
def Fl.sub : Fl → ℚ → Fl
  | .inf, _ => .inf
  | .fin a, b => .fin (a - b)

/-- The test length <= 0.0; plus-infinity is never at most zero. -/
def Fl.le0 : Fl → Bool
  | .inf => false
  | .fin a => decide (a ≤ 0)

/-- Density model of a sector, abstracted to its column_depth method (the
core DensityModel lives outside the binding sources). -/
structure DensityModel where
  column_depth : Vec3 → Vec3 → ℚ → ℚ

/-- Geometry sector as seen by the generic drivers. -/
structure GeometrySector where
  density : DensityModel

/-- Geometry definition, abstracted to what the generic locate and trace
drivers read from it: the sector list.  The three source variants (Simple,
External, Stratified) all instantiate this interface. -/
structure GeometryDefinition where
  sectors : List GeometrySector

/-- Geometry tracer contract (core GeometryTracer trait), abstracted as
pure functions over a tracer-state type: reset places the tracer, sector
reports the current sector or outside, position reads the current position,
step advances up to a bound and returns the step length taken, update
commits a step.  Fallible operations return Except. -/
structure GeometryTracer (σ : Type) where
  reset : Vec3 → Vec3 → Except Err σ
  sector : σ → Option Nat
  position : σ → Vec3
  step : σ → Fl → Except Err ℚ
  update : σ → ℚ → Vec3 → Except Err σ

-- ===========================================================================
-- Generic locate driver (src/python/geometry.rs, fn locate).
-- ===========================================================================

/-- Loop body of locate: per state, reset the tracer at the state position
and direction, write the current sector or the sentinel len(sectors), and
poll the cancellation probe after the write whenever i mod 1000 = 0.  The
first component collects the entries written so far, in index order. -/
def locateLoop {σ : Type} (D : GeometryDefinition) (T : GeometryTracer σ)
    (probe : Nat → Bool) : Nat → List CState → List Nat × Except Err Unit
  | _, [] => ([], .ok ())
  | i, s :: rest =>
    match T.reset s.position s.direction with
    | .error e => ([], .error e)
    | .ok t =>
      let sec := (T.sector t).getD D.sectors.length
      if i % 1000 = 0 ∧ probe i = true then
        ([sec], .error .keyboardInterrupt)
      else
        let r := locateLoop D T probe (i + 1) rest
        (sec :: r.1, r.2)

/-- locate: run the loop from index 0. -/
def locate {σ : Type} (D : GeometryDefinition) (T : GeometryTracer σ)
    (probe : Nat → Bool) (states : List CState) : List Nat × Except Err Unit :=
  locateLoop D T probe 0 states

-- ===========================================================================
-- Transport engine and driver (src/python/transport.rs, PyTransportEngine).
-- ===========================================================================

/-- Per-iteration constraint handling of transport_with: when explicit
source energies were supplied, settings.constraint is overwritten with the
i-th entry (or the scalar) before the agent runs; otherwise the settings
pass through unchanged. -/
def constraintAt (constraints : Option ArrayOrFloat) (i : Nat)
    (settings : TransportSettings) : Except Err TransportSettings :=
  match constraints with
  | none => .ok settings
  | some cs =>
    match cs.get i with
    | .error e => .error e
    | .ok c => .ok { settings with constraint := some c }

/-- Monte Carlo loop of transport_with: per index i, update the settings
constraint, run the transport agent on the i-th state, write back the
updated state and the status flag, and poll the cancellation probe after
the write whenever i mod 100 = 0.  The first component is the final content
of the caller-visible states array for the sublist processed (entries not
reached keep their input values); the second collects the status entries
written so far, in index order.  The agent abstracts the core
TransportAgent together with the random stream it consumes. -/
def transportLoop (agent : TransportSettings → CState → Except Err (CState × TransportStatus))
    (probe : Nat → Bool) (constraints : Option ArrayOrFloat) :
    Nat → TransportSettings → List CState →
    List CState × List TransportStatus × Except Err Unit
  | _, _, [] => ([], [], .ok ())
  | i, settings, s :: rest =>
    match constraintAt constraints i settings with
    | .error e => (s :: rest, [], .error e)
    | .ok settings1 =>
      match agent settings1 s with
      | .error e => (s :: rest, [], .error e)
      | .ok (s1, flag) =>
        if i % 100 = 0 ∧ probe i = true then
          (s1 :: rest, [flag], .error .keyboardInterrupt)
        else
          let r := transportLoop agent probe constraints (i + 1) settings1 rest
          (s1 :: r.1, flag :: r.2.1, r.2.2)

/-- PyTransportEngine::transport_with: clone the settings, null the
constraint when no explicit source energies were given, reject explicit
source energies in Forward mode or when the settings constraint is null,
then run the Monte Carlo loop from index 0. -/
def transport_with
    (agent : TransportSettings → CState → Except Err (CState × TransportStatus))
    (probe : Nat → Bool) (settings0 : TransportSettings)
    (states : List CState) (constraints : Option ArrayOrFloat) :
    List CState × List TransportStatus × Except Err Unit :=
  let settings :=
    match constraints with
    | none => { settings0 with constraint := none }
    | some _ => settings0
  match constraints with
  | some _ =>
    if settings.mode = .Forward then
      (states, [], .error (.valueError "bad constraints unused in Forward mode"))
    else if settings.constraint = none then
      (states, [], .error (.valueError "bad constraints disabled by transport settings"))
    else
      transportLoop agent probe constraints 0 settings states
  | none => transportLoop agent probe constraints 0 settings states

/-- Engine state touched by compile and transport: geometry, registry,
settings wrapper, and the compiled flag.  The registry and geometry types
are abstract (their implementations live outside the binding sources). -/
structure TransportEngine (Geo Reg : Type) where
  geometry : Option Geo
  registry : Reg
  settings : PyTransportSettings
  compiled : Bool

/-- Resolution of the compile mode argument: a missing mode follows the
settings mode; otherwise only All, Backward, Both and Forward are valid. -/
def resolveCompileMode (mode : Option String) (s : TransportSettings) : Except Err String :=
  match mode with
  | none =>
    match s.mode with
    | .Backward => .ok "Backward"
    | .Forward => .ok "Forward"
  | some m =>
    if m = "All" ∨ m = "Backward" ∨ m = "Both" ∨ m = "Forward" then .ok m
    else .error (.valueError "bad mode")

/-- Effect of PyTransportEngine::compile on the engine once the mode is
resolved: the registry is updated (geometry materials added, atomic data
loaded, tables computed for the resolved mode, all folded into compileReg,
whose implementation lives outside the binding sources) and the compiled
flag is set.  Settings and geometry are left unchanged. -/
def compileEngine {Geo Reg : Type}
    (compileReg : String → TransportSettings → Option Geo → Reg → Reg)
    (m : String) (e : TransportEngine Geo Reg) : TransportEngine Geo Reg :=
  { e with
    registry := compileReg m e.settings.inner e.geometry e.registry
    compiled := true }

/-- PyTransportEngine::compile: validate the mode, then apply the engine
effect. -/
def compile {Geo Reg : Type}
    (compileReg : String → TransportSettings → Option Geo → Reg → Reg)
    (mode : Option String) (e : TransportEngine Geo Reg) :
    Except Err (TransportEngine Geo Reg) :=
  match resolveCompileMode mode e.settings.inner with
  | .error er => .error er
  | .ok m => .ok (compileEngine compileReg m e)

/-- Tail of PyTransportEngine::transport after the size check: lazily
compile in mode Both when the compiled flag is not yet set (the mode
argument Both is always valid, so this compile step cannot fail on the
mode), then dispatch on the geometry: none is a type error, otherwise run
transport_with with the tracer agent of the variant. -/
def transportAfterCheck {Geo Reg : Type}
    (compileReg : String → TransportSettings → Option Geo → Reg → Reg)
    (agentOf : Geo → TransportSettings → CState → Except Err (CState × TransportStatus))
    (probe : Nat → Bool)
    (e : TransportEngine Geo Reg) (states : List CState)
    (sources_energies : Option ArrayOrFloat) :
    TransportEngine Geo Reg × List CState × List TransportStatus × Except Err Unit :=
  let e1 := if e.compiled then e else compileEngine compileReg "Both" e
  match e1.geometry with
  | none => (e1, states, [], .error (.typeError "bad geometry none"))
  | some g =>
    (e1, transport_with (agentOf g) probe e1.settings.inner states sources_energies)

/-- PyTransportEngine::transport: reject a source-energies array whose size
differs from the states array, then proceed. -/
def transport {Geo Reg : Type}
    (compileReg : String → TransportSettings → Option Geo → Reg → Reg)
    (agentOf : Geo → TransportSettings → CState → Except Err (CState × TransportStatus))
    (probe : Nat → Bool)
    (e : TransportEngine Geo Reg) (states : List CState)
    (sources_energies : Option ArrayOrFloat) :
    TransportEngine Geo Reg × List CState × List TransportStatus × Except Err Unit :=
  match sources_energies with
  | some (.array cs) =>
    if cs.length ≠ states.length then
      (e, states, [], .error (.valueError "bad constraints size"))
    else
      transportAfterCheck compileReg agentOf probe e states sources_energies
  | _ => transportAfterCheck compileReg agentOf probe e states sources_energies

-- ===========================================================================
-- Generic trace driver (src/python/geometry.rs, fn trace).
-- ===========================================================================

/-- Inner loop of trace for one state, with explicit fuel (the source loop
is unbounded; running out of fuel is reported as an artificial error shared
by the code-level and claim-level recursions below).  Arguments after the
fuel: the tracer state, the remaining length budget, the per-sector
accumulator array, the iteration counter k, and the number of probe polls
made so far.  Mirrors the source body: read the current sector (outside
breaks the loop), take a step bounded by the remaining budget, accumulate
the column depth of the sector density model when density is requested and
the bare step length otherwise, decrement the budget and break at <= 0 only
when a lengths argument was supplied, commit with update, then every 1000
completed iterations poll the cancellation probe.  A sector index outside
the sector list is a panic in the source, modelled as an error. -/
def traceInner (D : GeometryDefinition) {σ : Type} (T : GeometryTracer σ)
    (probe : Nat → Bool) (direction : Vec3) (density : Bool) (hasLengths : Bool) :
    Nat → σ → Fl → List ℚ → Nat → Nat → Except Err (List ℚ × Nat × Nat)
  | 0, _, _, _, _, _ => .error (.valueError "fuel exhausted")
  | fuel + 1, t, length, grams, k, polls =>
    match T.sector t with
    | none => .ok (grams, k, polls)
    | some sector =>
      match T.step t length with
      | .error e => .error e
      | .ok step_length =>
        if hs : sector < D.sectors.length then
          let grams1 :=
            if density then
              grams.set sector (grams.getD sector 0
                + (D.sectors.get ⟨sector, hs⟩).density.column_depth
                    (T.position t) direction step_length)
            else
              grams.set sector (grams.getD sector 0 + step_length)
          let remaining := if hasLengths then length.sub step_length else length
          if hasLengths = true ∧ remaining.le0 = true then .ok (grams1, k, polls)
          else
            match T.update t step_length direction with
            | .error e => .error e
            | .ok t1 =>
              if k + 1 = 1000 then
                if probe polls = true then .error .keyboardInterrupt
                else traceInner D T probe direction density hasLengths fuel t1 remaining
                  grams1 0 (polls + 1)
              else traceInner D T probe direction density hasLengths fuel t1 remaining
                grams1 (k + 1) polls
        else .error (.valueError "sector index out of range")

/-- Per-index length budget of trace: plus-infinity when no lengths
argument was supplied, otherwise the i-th entry (or the scalar). -/
def lengthAt (lengths : Option ArrayOrFloat) (i : Nat) : Except Err Fl :=
  match lengths with
  | none => .ok Fl.inf
  | some ls => (ls.get i).map Fl.fin

/-- Outer loop of trace: per state, reset the tracer at the state position
and direction, start the per-sector accumulators at zero, run the inner
loop, and append the resulting row to the flat output (the source writes
row i at flat offset i * num_sectors of the (N, num_sectors) result).
The iteration counter and poll count persist across states. -/
def traceBatch (D : GeometryDefinition) {σ : Type} (T : GeometryTracer σ)
    (probe : Nat → Bool) (lengths : Option ArrayOrFloat) (density : Bool)
    (fuel : Nat) : Nat → Nat → Nat → List CState → Except Err (List ℚ)
  | _, _, _, [] => .ok []
  | i, k, polls, s :: rest =>
    match lengthAt lengths i with
    | .error e => .error e
    | .ok length0 =>
      match T.reset s.position s.direction with
      | .error e => .error e
      | .ok t =>
        match traceInner D T probe s.direction density lengths.isSome fuel t length0
            (List.replicate D.sectors.length 0) k polls with
        | .error e => .error e
        | .ok (grams, k1, polls1) =>
          match traceBatch D T probe lengths density fuel (i + 1) k1 polls1 rest with
          | .error e => .error e
          | .ok tail => .ok (grams ++ tail)

/-- fn trace: reject a lengths array whose size differs from the states
array, then run the batch from index 0; a missing density argument counts
as false. -/
def trace (D : GeometryDefinition) {σ : Type} (T : GeometryTracer σ)
    (probe : Nat → Bool) (fuel : Nat) (states : List CState)
    (lengths : Option ArrayOrFloat) (density : Option Bool) : Except Err (List ℚ) :=
  match lengths with
  | some (.array ls) =>
    if ls.length ≠ states.length then .error (.valueError "bad lengths size")
    else traceBatch D T probe lengths (density.getD false) fuel 0 0 0 states
  | _ => traceBatch D T probe lengths (density.getD false) fuel 0 0 0 states

/-- Claim-level per-state tracing recursion, written from the words of the
claim: reset produced tracer state t; loop: read the current sector, take
step = trace(remaining), add the column depth of the sector density model
when density is requested and the step itself otherwise, decrement the
remaining length only when a lengths argument was supplied and stop when it
reaches <= 0, then commit with update(step, direction); the loop ends when
the tracer reports outside.  Shares the fuel artifact of the code-level
loop. -/
def traceSpecLoop (D : GeometryDefinition) {σ : Type} (T : GeometryTracer σ)
    (direction : Vec3) (density : Bool) (hasLengths : Bool) :
    Nat → σ → Fl → List ℚ → Except Err (List ℚ)
  | 0, _, _, _ => .error (.valueError "fuel exhausted")
  | fuel + 1, t, remaining, acc =>
    match T.sector t with
    | none => .ok acc
    | some sector =>
      match T.step t remaining with
      | .error e => .error e
      | .ok step_length =>
        if hs : sector < D.sectors.length then
          let acc1 :=
            if density then
              acc.set sector (acc.getD sector 0
                + (D.sectors.get ⟨sector, hs⟩).density.column_depth
                    (T.position t) direction step_length)
            else
              acc.set sector (acc.getD sector 0 + step_length)
          let remaining1 := if hasLengths then remaining.sub step_length else remaining
          if hasLengths = true ∧ remaining1.le0 = true then .ok acc1
          else
            match T.update t step_length direction with
            | .error e => .error e
            | .ok t1 => traceSpecLoop D T direction density hasLengths fuel t1 remaining1 acc1
        else .error (.valueError "sector index out of range")

/-- Claim-level batch: one row of per-sector accumulators per state, rows
collected in index order into an (N, num_sectors) matrix. -/
def traceSpecBatch (D : GeometryDefinition) {σ : Type} (T : GeometryTracer σ)
    (lengths : Option ArrayOrFloat) (density : Bool) (fuel : Nat) :
    Nat → List CState → Except Err (List (List ℚ))
  | _, [] => .ok []
  | i, s :: rest =>
    match lengthAt lengths i with
    | .error e => .error e
    | .ok remaining0 =>
      match T.reset s.position s.direction with
      | .error e => .error e
      | .ok t =>
        match traceSpecLoop D T s.direction density lengths.isSome fuel t remaining0
            (List.replicate D.sectors.length 0) with
        | .error e => .error e
        | .ok row =>
          match traceSpecBatch D T lengths density fuel (i + 1) rest with
          | .error e => .error e
          | .ok rows => .ok (row :: rows)

-- ===========================================================================
-- Generic z-computation (src/python/geometry.rs, trait ComputeZ).
-- ===========================================================================

/-- A float that may be IEEE NaN, the undefined sentinel at the Python
interface. -/
inductive FVal where
  | nan
  | val (x : ℚ)
deriving DecidableEq

/-- Result of one compute_z call: a column of optional heights for a
stratified geometry, a single optional height otherwise. -/
inductive ComputeZResult where
  | Many (zs : List (Option ℚ))
  | One (z : Option ℚ)

/-- The source expression z.unwrap_or(Float::NAN). -/
def unwrapOrNaN : Option ℚ → FVal
  | none => .nan
  | some q => .val q

/-- Total in-range element access used by the query loops (the source get
returns an error only past the end, and the loops stay in range). -/
def ArrayOrFloat.getDQ : ArrayOrFloat → Nat → ℚ
  | .array xs, i => xs.getD i 0
  | .float v, _ => v

/-- The entries written for one evaluation point: the z column (one entry
per interface, nz in total) for a Many result, a single entry for a One
result, every undefined height becoming NaN. -/
def zCell (cz : ℚ → ℚ → ComputeZResult) (nz : Nat) (a b : ℚ) : List FVal :=
  match cz a b with
  | .Many zs => (List.range nz).map (fun j => unwrapOrNaN (zs.getD j none))
  | .One z => [unwrapOrNaN z]

/-- Grid-form query: entries in write order, row-major over (i, j) with the
inner z column contiguous (the source writes index nz * (i * nx + j) + k,
or i * nx + j when the result is scalar-like). -/
def computeZGrid (cz : ℚ → ℚ → ComputeZResult) (nz : Nat) (x y : ArrayOrFloat) : List FVal :=
  ((List.range y.size).map (fun i =>
    ((List.range x.size).map (fun j => zCell cz nz (x.getDQ j) (y.getDQ i))).flatten)).flatten

/-- Vector-form query: one entry (or one z column) per index. -/
def computeZEntries (cz : ℚ → ℚ → ComputeZResult) (nz : Nat)
    (x y : ArrayOrFloat) (n : Nat) : List FVal :=
  ((List.range n).map (fun i => zCell cz nz (x.getDQ i) (y.getDQ i))).flatten

/-- ComputeZ::compute_z_vec: grid form loops y-major over both axes after a
non-empty check; otherwise two scalars yield a single entry (or one z
column), and the vector form broadcasts a scalar against an array, with a
size check when both are arrays.  Every undefined height becomes NaN. -/
def compute_z_vec (cz : ℚ → ℚ → ComputeZResult) (nz : Nat)
    (x y : ArrayOrFloat) (grid : Option Bool) : Except Err (List FVal) :=
  if grid.getD false then
    if x.size = 0 ∨ y.size = 0 then .error (.valueError "bad size")
    else .ok (computeZGrid cz nz x y)
  else
    match x, y with
    | .float xv, .float yv => .ok (zCell cz nz xv yv)
    | .array xs, .array ys =>
      if xs.length ≠ ys.length then
        .error (.valueError "bad size x and y arrays must have the same size")
      else .ok (computeZEntries cz nz x y xs.length)
    | .array xs, .float _ => .ok (computeZEntries cz nz x y xs.length)
    | .float _, .array ys => .ok (computeZEntries cz nz x y ys.length)

/-- Modelled from the spec: the core TopographyMap and its method z, which
are not part of the binding sources.  A map carries a rectangular domain
and height data (a dense bilinear interpolation grid or a degenerate
constant), abstracted into a total height function; z returns the height
inside the closed domain and undefined outside. -/
structure TopographyMap where
  xmin : ℚ
  xmax : ℚ
  ymin : ℚ
  ymax : ℚ
  height : ℚ → ℚ → ℚ

/-- Modelled from the spec: out-of-domain queries return undefined. -/
def TopographyMap.z (m : TopographyMap) (x y : ℚ) : Option ℚ :=
  if m.xmin ≤ x ∧ x ≤ m.xmax ∧ m.ymin ≤ y ∧ y ≤ m.ymax then some (m.height x y)
  else none

/-- Modelled from the spec: the core TopographySurface, an ordered list of
shared maps plus a scalar offset. -/
structure TopographySurface where
  maps : List TopographyMap
  offset : ℚ

/-- Maximum of two optional heights. -/
def optMax : Option ℚ → Option ℚ → Option ℚ
  | none, b => b
  | some a, none => some a
  | some a, some b => some (max a b)

/-- Modelled from the spec: surface z evaluates every component map, takes
the maximum of the defined results, returns undefined when none is defined,
and applies the additive offset last. -/
def TopographySurface.z (s : TopographySurface) (x y : ℚ) : Option ℚ :=
  ((s.maps.map (fun m => m.z x y)).foldl optMax none).map (fun v => v + s.offset)

/-- Modelled from the spec: a stratified geometry as its list of interface
surfaces, top to bottom, N+1 entries for N sectors, each possibly
unbounded (none). -/
structure StratifiedGeometry where
  interfaces : List (Option TopographySurface)

/-- Modelled from the spec: StratifiedGeometry z column: the height of
every interface at (x, y), undefined for an unbounded interface or an
interface undefined there. -/
def StratifiedGeometry.z (g : StratifiedGeometry) (x y : ℚ) : List (Option ℚ) :=
  g.interfaces.map (fun s =>
    match s with
    | none => none
    | some s => s.z x y)

/-- ComputeZ instance of PyTopographyMap (src/python/geometry.rs): a single
optional height. -/
def mapComputeZ (m : TopographyMap) : ℚ → ℚ → ComputeZResult :=
  fun x y => .One (m.z x y)

/-- ComputeZ instance of PyTopographySurface. -/
def surfaceComputeZ (s : TopographySurface) : ℚ → ℚ → ComputeZResult :=
  fun x y => .One (s.z x y)

/-- ComputeZ instance of PyStratifiedGeometry: the full z column, with
compute_z_size = len(sectors) + 1 = number of interfaces. -/
def stratifiedComputeZ (g : StratifiedGeometry) : ℚ → ℚ → ComputeZResult :=
  fun x y => .Many (g.z x y)

-- ===========================================================================
-- Photon state layout (src/python/transport.rs CState and
-- src/python/numpy.rs FLOAT_FORMAT, dtype_float, dtype_state).
-- ===========================================================================

/-- FLOAT_FORMAT: the build-time float format string, f4 under the f32
feature and f8 otherwise. -/
def FLOAT_FORMAT (f32 : Bool) : String := if f32 then "f4" else "f8"

/-- Byte width of the build-time float type. -/
def floatWidth (f32 : Bool) : Nat := if f32 then 4 else 8

/-- Field layout of the repr(C) CState struct: name and number of floats,
in declaration order. -/
def cstateFields : List (String × Nat) :=
  [("energy", 1), ("position", 3), ("direction", 3), ("length", 1), ("weight", 1)]

/-- The numpy structured dtype built in numpy.rs for photon states: field
name, element format, and element count, in registration order (a plain
(name, format) pair counts one element). -/
def dtype_state (f32 : Bool) : List (String × String × Nat) :=
  [("energy", FLOAT_FORMAT f32, 1),
   ("position", FLOAT_FORMAT f32, 3),
   ("direction", FLOAT_FORMAT f32, 3),
   ("length", FLOAT_FORMAT f32, 1),
   ("weight", FLOAT_FORMAT f32, 1)]

/-- The scalar float dtype built in numpy.rs. -/
def dtype_float (f32 : Bool) : String := FLOAT_FORMAT f32

/-- Packed sequential offsets (in bytes) of a field list with w bytes per
float: both a repr(C) struct of uniform float fields (no padding, since
every field has the same alignment) and a packed numpy structured dtype lay
fields out this way. -/
def layoutOffsets (w : Nat) : List (String × Nat) → Nat → List (String × Nat)
  | [], _ => []
  | (nm, cnt) :: rest, off => (nm, off) :: layoutOffsets w rest (off + cnt * w)

/-- Total number of floats of a field list. -/
def totalFloats (fields : List (String × Nat)) : Nat :=
  (fields.map (fun f => f.2)).sum

-- ===========================================================================
-- states() factory (src/python/transport.rs, fn states).
-- ===========================================================================

/-- The zero photon state, as produced by numpy zeros with the state
dtype. -/
def zeroState : CState :=
  { energy := 0, position := (0, 0, 0), direction := (0, 0, 0), length := 0, weight := 0 }

/-- A keyword argument of states(), restricted to the five state fields
(any other key fails numpy field assignment in the source). -/
inductive StateKwarg where
  | energy (v : ℚ)
  | position (v : Vec3)
  | direction (v : Vec3)
  | length (v : ℚ)
  | weight (v : ℚ)

/-- The key string of a keyword argument. -/
def StateKwarg.key : StateKwarg → String
  | .energy _ => "energy"
  | .position _ => "position"
  | .direction _ => "direction"
  | .length _ => "length"
  | .weight _ => "weight"

/-- array.set_item(key, value): assign one field of every entry. -/
def setItem (arr : List CState) (kw : StateKwarg) : List CState :=
  arr.map (fun s =>
    match kw with
    | .energy v => { s with energy := v }
    | .position v => { s with position := v }
    | .direction v => { s with direction := v }
    | .length v => { s with length := v }
    | .weight v => { s with weight := v })

/-- fn states: allocate a zero-initialised array of the given shape (a
missing shape counts as [0]), apply every keyword argument, then default
direction to (0,0,1), energy to 1.0 and weight to 1.0 for the fields that
no keyword argument supplied. -/
def states (shape : Option (List Nat)) (kwargs : List StateKwarg) : List CState :=
  let shape := shape.getD [0]
  let n := shape.prod
  let arr := List.replicate n zeroState
  let has_direction := kwargs.any (fun kw => kw.key == "direction")
  let has_energy := kwargs.any (fun kw => kw.key == "energy")
  let has_weight := kwargs.any (fun kw => kw.key == "weight")
  let arr := kwargs.foldl setItem arr
  let arr := if has_direction then arr else setItem arr (.direction (0, 0, 1))
  let arr := if has_energy then arr else setItem arr (.energy 1)
  let arr := if has_weight then arr else setItem arr (.weight 1)
  arr

/-- Squared Euclidean norm of a 3-vector, for the unit-direction
invariant. -/
def normSq (v : Vec3) : ℚ := v.1 * v.1 + v.2.1 * v.2.1 + v.2.2 * v.2.2

-- ===========================================================================
-- Engine pickling (src/python/transport.rs, __getstate__ / __setstate__).
-- ===========================================================================

/-- Engine state touched by the pickling protocol: the random stream, the
material registry, the inner transport settings, the derived
volume_sources flag, the compiled flag, and the geometry (which the
protocol does not serialise).  The component types are abstract; the
settings type carries its constraint through the constraintOf accessor
passed to setstate. -/
structure SerEngine (P R G S : Type) where
  geometry : P
  random : R
  registry : G
  settings : S
  volume_sources : Bool
  compiled : Bool

/-- __getstate__: serialise the random stream, the registry, the inner
settings and the compiled flag, in that order, into one stream.  The
encoders stand for the message-pack Serialize implementations of the
component types, which live outside the binding sources. -/
def getstate {τ P R G S : Type}
    (encR : R → List τ) (encG : G → List τ) (encS : S → List τ) (encB : Bool → List τ)
    (e : SerEngine P R G S) : List τ :=
  encR e.random ++ encG e.registry ++ encS e.settings ++ encB e.compiled

/-- __setstate__: deserialise the four components in the same order,
re-derive volume_sources from whether the decoded constraint is null, and
keep the geometry of the engine being filled in.  The decoders consume a
prefix of the stream and return the rest. -/
def setstate {τ P R G S : Type}
    (decR : List τ → Option (R × List τ)) (decG : List τ → Option (G × List τ))
    (decS : List τ → Option (S × List τ)) (decB : List τ → Option (Bool × List τ))
    (constraintOf : S → Option ℚ)
    (e : SerEngine P R G S) (stream : List τ) : Except Err (SerEngine P R G S) :=
  match decR stream with
  | none => .error (.valueError "deserialize")
  | some (r, s1) =>
    match decG s1 with
    | none => .error (.valueError "deserialize")
    | some (g, s2) =>
      match decS s2 with
      | none => .error (.valueError "deserialize")
      | some (st, s3) =>
        match decB s3 with
        | none => .error (.valueError "deserialize")
        | some (b, _) =>
          .ok { geometry := e.geometry, random := r, registry := g, settings := st,
                volume_sources := (constraintOf st).isSome, compiled := b }

-- ===========================================================================
-- Concrete fixtures for counterexamples and witnesses.
-- ===========================================================================

/-- Decidable equality of Except results, for evaluating embedded runs on
concrete inputs. -/
instance {ε α : Type} [DecidableEq ε] [DecidableEq α] : DecidableEq (Except ε α)
  | .error e1, .error e2 =>
    if h : e1 = e2 then .isTrue (by rw [h]) else .isFalse (by intro hc; cases hc; exact h rfl)
  | .error _, .ok _ => .isFalse (by intro hc; cases hc)
  | .ok _, .error _ => .isFalse (by intro hc; cases hc)
  | .ok a1, .ok a2 =>
    if h : a1 = a2 then .isTrue (by rw [h]) else .isFalse (by intro hc; cases hc; exact h rfl)

/-- A unit photon state at the origin heading up. -/
def st0 : CState :=
  { energy := 1, position := (0, 0, 0), direction := (0, 0, 1), length := 0, weight := 1 }

/-- A transport agent that terminates every photon unchanged with Exit. -/
def exitAgent : TransportSettings → CState → Except Err (CState × TransportStatus) :=
  fun _ st => .ok (st, .Exit)

/-- A cancellation probe that signals at every poll. -/
def alwaysProbe : Nat → Bool := fun _ => true

/-- A cancellation probe that never signals. -/
def neverProbe : Nat → Bool := fun _ => false

/-- A one-sector geometry whose density doubles the step length. -/
def oneSectorGeometry : GeometryDefinition :=
  { sectors := [{ density := { column_depth := fun _ _ step => 2 * step } }] }

/-- A toy tracer over a Boolean inside flag: the first step of length 5
leaves the single sector. -/
def flagTracer : GeometryTracer Bool :=
  { reset := fun _ _ => .ok true
    sector := fun b => if b then some 0 else none
    position := fun _ => (0, 0, 0)
    step := fun _ _ => .ok 5
    update := fun _ _ _ => .ok false }

/-- A toy tracer whose state is the position: inside the single sector in
the upper half space, outside below. -/
def posTracer : GeometryTracer Vec3 :=
  { reset := fun p _ => .ok p
    sector := fun p => if p.2.2 ≥ 0 then some 0 else none
    position := fun p => p
    step := fun _ _ => .ok 0
    update := fun p _ _ => .ok p }

/-- A photon state below the half space of posTracer. -/
def stBelow : CState :=
  { energy := 1, position := (0, 0, -2), direction := (0, 0, 1), length := 0, weight := 1 }

/-- A trivial registry compiler over unit geometry and registry types. -/
def unitCompileReg : String → TransportSettings → Option Unit → Unit → Unit :=
  fun _ _ _ _ => ()

/-- The Exit agent for the unit geometry. -/
def unitAgentOf : Unit → TransportSettings → CState → Except Err (CState × TransportStatus) :=
  fun _ => exitAgent

/-- An uncompiled engine with no geometry. -/
def bareEngine : TransportEngine Unit Unit :=
  { geometry := none, registry := (), settings := c1start, compiled := false }

/-- A constant topography map over the unit square. -/
def m0 : TopographyMap :=
  { xmin := 0, xmax := 1, ymin := 0, ymax := 1, height := fun _ _ => 7 }

/-- A one-map surface with offset 1. -/
def s0f : TopographySurface := { maps := [m0], offset := 1 }

/-- A one-sector stratified geometry: a bounded top interface and an
unbounded bottom. -/
def g0 : StratifiedGeometry := { interfaces := [some s0f, none] }

/-- Token-list codec for naturals: one token per value. -/
def natEnc : Nat → List Nat := fun n => [n]

/-- Decoder matching natEnc. -/
def natDec : List Nat → Option (Nat × List Nat) :=
  fun l =>
    match l with
    | [] => none
    | n :: r => some (n, r)

/-- Token-list codec for booleans. -/
def boolEnc : Bool → List Nat := fun b => [if b then 1 else 0]

/-- Decoder matching boolEnc. -/
def boolDec : List Nat → Option (Bool × List Nat) :=
  fun l =>
    match l with
    | [] => none
    | n :: r => some (n == 1, r)

/-- Constraint accessor of the Boolean toy settings type: true stands for a
non-null constraint of 1.0. -/
def boolConstraintOf : Bool → Option ℚ := fun b => if b then some 1 else none

/-- A serialisable engine to be overwritten by setstate. -/
def serE : SerEngine (Option Unit) Nat Nat Bool :=
  { geometry := none, random := 0, registry := 0, settings := false,
    volume_sources := false, compiled := false }

/-- A fully configured serialisable engine. -/
def serE0 : SerEngine (Option Unit) Nat Nat Bool :=
  { geometry := some (), random := 7, registry := 3, settings := true,
    volume_sources := true, compiled := true }

-- ===========================================================================
-- Theorems.
-- ===========================================================================

lemma settingsInv_set_mode (s : PyTransportSettings) (v : TransportMode)
    (h : settingsInv s) : settingsInv (set_mode s v) := by
  obtain ⟨h1, h2, h3, h4⟩ := h
  cases v <;> rcases hcm : s.inner.compton_mode <;>
    simp_all [set_mode, settingsInv]

lemma settingsInv_set_compton_mode (s : PyTransportSettings) (v : ComptonMode)
    (h : settingsInv s) : settingsInv (set_compton_mode s v) := by
  obtain ⟨h1, h2, h3, h4⟩ := h
  cases v <;> simp_all [set_compton_mode, settingsInv]

lemma settingsInv_set_volume_sources (s : PyTransportSettings) (v : Option Bool)
    (h : settingsInv s) : settingsInv (set_volume_sources s v) := by
  obtain ⟨h1, h2, h3, h4⟩ := h
  rcases v with _ | b
  · simp_all [set_volume_sources, settingsInv, Option.getD]
  · cases b <;> simp_all [set_volume_sources, settingsInv, Option.getD]

lemma settingsInv_applySetter (s : PyTransportSettings) (c : SetterCall)
    (h : settingsInv s) : settingsInv (applySetter s c) := by
  cases c with
  | mode v => exact settingsInv_set_mode s v h
  | compton_mode v => exact settingsInv_set_compton_mode s v h
  | volume_sources v => exact settingsInv_set_volume_sources s v h
  | absorption v =>
    obtain ⟨h1, h2, h3, h4⟩ := h
    exact ⟨h1, h2, h3, h4⟩
  | boundary v =>
    obtain ⟨h1, h2, h3, h4⟩ := h
    cases v <;> exact ⟨h1, h2, h3, h4⟩
  | compton_method v =>
    obtain ⟨h1, h2, h3, h4⟩ := h
    exact ⟨h1, h2, h3, h4⟩
  | compton_model v =>
    obtain ⟨h1, h2, h3, h4⟩ := h
    exact ⟨h1, h2, h3, h4⟩
  | rayleigh v =>
    obtain ⟨h1, h2, h3, h4⟩ := h
    unfold applySetter set_rayleigh
    rcases hb : (v.getD false) <;> simp_all [settingsInv]
  | energy_min v =>
    obtain ⟨h1, h2, h3, h4⟩ := h
    exact ⟨h1, h2, h3, h4⟩
  | energy_max v =>
    obtain ⟨h1, h2, h3, h4⟩ := h
    exact ⟨h1, h2, h3, h4⟩
  | length_max v =>
    obtain ⟨h1, h2, h3, h4⟩ := h
    exact ⟨h1, h2, h3, h4⟩

/-- Claim C1, counterexample: starting from a state satisfying the full
claimed invariant, the setter sequence compton_mode := Inverse followed by
compton_method := RejectionSampling leaves compton_mode = Inverse with
compton_method = RejectionSampling, because set_compton_method performs no
coercion; the claimed invariant therefore does not survive every sequence
of setter calls. -/
theorem c1_counterexample :
    settingsClaimInv c1start
    ∧ ¬ settingsClaimInv
        (applySetters c1start
          [.compton_mode .Inverse, .compton_method .RejectionSampling]) := by
  constructor
  · decide
  · decide

/-- Claim C1, amended: after every sequence of setter calls starting from a
state satisfying it, the invariant holds with the compton_method link
weakened to its non-persistent form: Backward mode excludes Direct Compton,
Forward mode forces Compton into Direct or None, Inverse Compton forces
Backward mode, and volume_sources mirrors non-nullity of the constraint
(true initialises it to 1.0, false nulls it); the link
compton_method = InverseTransform is established by the compton_mode :=
Inverse setter itself but may be broken by a later compton_method setter. -/
theorem c1_settings_invariant (s : PyTransportSettings) (calls : List SetterCall)
    (h : settingsInv s) :
    settingsInv (applySetters s calls)
    ∧ (set_compton_mode s .Inverse).inner.compton_method = .InverseTransform
    ∧ (set_compton_mode s .Inverse).inner.mode = .Backward := by
  refine ⟨?_, rfl, rfl⟩
  induction calls generalizing s with
  | nil => exact h
  | cons c rest ih =>
    exact ih (applySetter s c) (settingsInv_applySetter s c h)

/-- Witness for c1_settings_invariant at a concrete state and sequence. -/
theorem c1_settings_invariant_witness :
    settingsInv c1start
    ∧ (settingsInv (applySetters c1start [.mode .Backward, .volume_sources none])
        ∧ (set_compton_mode c1start .Inverse).inner.compton_method = .InverseTransform
        ∧ (set_compton_mode c1start .Inverse).inner.mode = .Backward) :=
  ⟨by decide, c1_settings_invariant c1start [.mode .Backward, .volume_sources none] (by decide)⟩

lemma locateLoop_no_probe {σ : Type} (D : GeometryDefinition)
    (T : GeometryTracer σ) (tr : CState → σ) :
    ∀ (i : Nat) (states : List CState),
    (∀ s ∈ states, T.reset s.position s.direction = .ok (tr s)) →
    locateLoop D T (fun _ => false) i states
      = (states.map (fun s => (T.sector (tr s)).getD D.sectors.length), .ok ()) := by
  intro i states
  induction states generalizing i with
  | nil => intro _; rfl
  | cons s rest ih =>
    intro h
    have hs := h s (List.mem_cons_self s rest)
    have hrest := fun x hx => h x (List.mem_cons_of_mem s hx)
    simp only [locateLoop, hs, ih (i + 1) hrest, List.map_cons]
    simp

/-- Claim C3: for every geometry and tracer instance, locate resets the
tracer at each state position and direction and writes, per state, the
current sector index when one exists and otherwise the sentinel
len(sectors); the output has one entry per input state (same shape).
Stated for runs where every reset succeeds (tr gives the tracer state it
produces) and the cancellation probe stays silent. -/
theorem c3_locate {σ : Type} (D : GeometryDefinition) (T : GeometryTracer σ)
    (states : List CState) (tr : CState → σ)
    (h : ∀ s ∈ states, T.reset s.position s.direction = .ok (tr s)) :
    locate D T (fun _ => false) states
      = (states.map (fun s => (T.sector (tr s)).getD D.sectors.length), .ok ())
    ∧ (locate D T (fun _ => false) states).1.length = states.length := by
  have hmain := locateLoop_no_probe D T tr 0 states h
  refine ⟨hmain, ?_⟩
  rw [show locate D T (fun _ => false) states = locateLoop D T (fun _ => false) 0 states from rfl,
    hmain]
  simp

/-- Witness for c3_locate: a one-sector geometry whose tracer reports sector
0 in the upper half space and outside below. -/
theorem c3_locate_witness :
    locate oneSectorGeometry posTracer neverProbe [st0, stBelow] = ([0, 1], .ok ()) := by
  have h := c3_locate oneSectorGeometry posTracer [st0, stBelow]
    (fun s => s.position) (by intro s _; rfl)
  rw [show locate oneSectorGeometry posTracer neverProbe [st0, stBelow]
      = locate oneSectorGeometry posTracer (fun _ => false) [st0, stBelow] from rfl, h.1]
  rfl

lemma transport_with_err
    (agent : TransportSettings → CState → Except Err (CState × TransportStatus))
    (probe : Nat → Bool) (settings0 : TransportSettings)
    (states : List CState) (c : ArrayOrFloat)
    (h : settings0.mode = .Forward ∨ settings0.constraint = none) :
    ∃ er, transport_with agent probe settings0 states (some c)
      = (states, [], .error er) := by
  by_cases hm : settings0.mode = .Forward
  · exact ⟨.valueError "bad constraints unused in Forward mode",
      by simp [transport_with, hm]⟩
  · rcases h with h | h
    · exact absurd h hm
    · exact ⟨.valueError "bad constraints disabled by transport settings",
        by simp [transport_with, hm, h]⟩

lemma transport_eq_afterCheck {Geo Reg : Type}
    (cr : String → TransportSettings → Option Geo → Reg → Reg)
    (ao : Geo → TransportSettings → CState → Except Err (CState × TransportStatus))
    (probe : Nat → Bool) (e : TransportEngine Geo Reg) (states : List CState)
    (ses : Option ArrayOrFloat)
    (hsz : ∀ cs, ses = some (.array cs) → cs.length = states.length) :
    transport cr ao probe e states ses = transportAfterCheck cr ao probe e states ses := by
  cases ses with
  | none => rfl
  | some a =>
    cases a with
    | float v => rfl
    | array cs =>
      have h := hsz cs rfl
      simp [transport, h]

lemma lazyEngine_settings {Geo Reg : Type}
    (cr : String → TransportSettings → Option Geo → Reg → Reg)
    (e : TransportEngine Geo Reg) :
    (if e.compiled then e else compileEngine cr "Both" e).settings = e.settings := by
  by_cases hc : e.compiled <;> simp [hc, compileEngine]

lemma lazyEngine_geometry {Geo Reg : Type}
    (cr : String → TransportSettings → Option Geo → Reg → Reg)
    (e : TransportEngine Geo Reg) :
    (if e.compiled then e else compileEngine cr "Both" e).geometry = e.geometry := by
  by_cases hc : e.compiled <;> simp [hc, compileEngine]

lemma afterCheck_geom_none {Geo Reg : Type}
    (cr : String → TransportSettings → Option Geo → Reg → Reg)
    (ao : Geo → TransportSettings → CState → Except Err (CState × TransportStatus))
    (probe : Nat → Bool) (e : TransportEngine Geo Reg) (states : List CState)
    (ses : Option ArrayOrFloat) (hg : e.geometry = none) :
    transportAfterCheck cr ao probe e states ses
      = ((if e.compiled then e else compileEngine cr "Both" e), states, [],
         .error (.typeError "bad geometry none")) := by
  have h1 : (if e.compiled then e else compileEngine cr "Both" e).geometry = none := by
    rw [lazyEngine_geometry, hg]
  simp [transportAfterCheck, h1]

lemma afterCheck_geom_some {Geo Reg : Type}
    (cr : String → TransportSettings → Option Geo → Reg → Reg)
    (ao : Geo → TransportSettings → CState → Except Err (CState × TransportStatus))
    (probe : Nat → Bool) (e : TransportEngine Geo Reg) (states : List CState)
    (ses : Option ArrayOrFloat) (g : Geo) (hg : e.geometry = some g) :
    transportAfterCheck cr ao probe e states ses
      = ((if e.compiled then e else compileEngine cr "Both" e),
         transport_with (ao g) probe e.settings.inner states ses) := by
  have h1 : (if e.compiled then e else compileEngine cr "Both" e).geometry = some g := by
    rw [lazyEngine_geometry, hg]
  have h2 : (if e.compiled then e else compileEngine cr "Both" e).settings = e.settings :=
    lazyEngine_settings cr e
  simp [transportAfterCheck, h1, h2]

/-- Claim C4: transport rejects a source-energies array whose size differs
from the states array, explicit source energies in Forward mode, explicit
source energies while the settings constraint is null, and a missing
geometry; each case is reported as an error (a value distinct from the
TransportStatus codes by construction), the states array is returned
unmodified, and no status entry has been written. -/
theorem c4_transport_input_errors {Geo Reg : Type}
    (cr : String → TransportSettings → Option Geo → Reg → Reg)
    (ao : Geo → TransportSettings → CState → Except Err (CState × TransportStatus))
    (probe : Nat → Bool) (e : TransportEngine Geo Reg) (states : List CState)
    (ses : Option ArrayOrFloat)
    (h : (∃ cs, ses = some (.array cs) ∧ cs.length ≠ states.length)
        ∨ e.geometry = none
        ∨ (ses.isSome = true ∧ e.settings.inner.mode = .Forward)
        ∨ (ses.isSome = true ∧ e.settings.inner.constraint = none)) :
    (transport cr ao probe e states ses).2.1 = states
    ∧ (transport cr ao probe e states ses).2.2.1 = []
    ∧ ∃ er, (transport cr ao probe e states ses).2.2.2 = .error er := by
  by_cases hsz : ∃ cs, ses = some (.array cs) ∧ cs.length ≠ states.length
  · obtain ⟨cs, rfl, hne⟩ := hsz
    simp [transport, hne]
  · have hsz1 : ∀ cs, ses = some (.array cs) → cs.length = states.length := by
      intro cs hcs
      by_contra hne
      exact hsz ⟨cs, hcs, hne⟩
    rw [transport_eq_afterCheck cr ao probe e states ses hsz1]
    cases hgeo : e.geometry with
    | none =>
      rw [afterCheck_geom_none cr ao probe e states ses hgeo]
      exact ⟨rfl, rfl, _, rfl⟩
    | some g =>
      rcases h with hbad | hg | ⟨hs, hm⟩ | ⟨hs, hc⟩
      · exact absurd hbad hsz
      · rw [hgeo] at hg
        cases hg
      · obtain ⟨c, rfl⟩ := Option.isSome_iff_exists.mp hs
        rw [afterCheck_geom_some cr ao probe e states (some c) g hgeo]
        obtain ⟨er, heq⟩ :=
          transport_with_err (ao g) probe e.settings.inner states c (Or.inl hm)
        rw [heq]
        exact ⟨rfl, rfl, er, rfl⟩
      · obtain ⟨c, rfl⟩ := Option.isSome_iff_exists.mp hs
        rw [afterCheck_geom_some cr ao probe e states (some c) g hgeo]
        obtain ⟨er, heq⟩ :=
          transport_with_err (ao g) probe e.settings.inner states c (Or.inr hc)
        rw [heq]
        exact ⟨rfl, rfl, er, rfl⟩

/-- Witness for c4_transport_input_errors: an engine with no geometry. -/
theorem c4_transport_input_errors_witness :
    (transport unitCompileReg unitAgentOf neverProbe bareEngine [st0] none).2.1 = [st0]
    ∧ (transport unitCompileReg unitAgentOf neverProbe bareEngine [st0] none).2.2.1 = []
    ∧ ∃ er, (transport unitCompileReg unitAgentOf neverProbe bareEngine [st0] none).2.2.2
        = .error er :=
  c4_transport_input_errors unitCompileReg unitAgentOf neverProbe bareEngine [st0] none
    (Or.inr (Or.inl rfl))

lemma afterCheck_fst {Geo Reg : Type}
    (cr : String → TransportSettings → Option Geo → Reg → Reg)
    (ao : Geo → TransportSettings → CState → Except Err (CState × TransportStatus))
    (probe : Nat → Bool) (e : TransportEngine Geo Reg) (states : List CState)
    (ses : Option ArrayOrFloat) :
    (transportAfterCheck cr ao probe e states ses).1
      = if e.compiled then e else compileEngine cr "Both" e := by
  cases hg : (if e.compiled then e else compileEngine cr "Both" e).geometry with
  | none => simp [transportAfterCheck, hg]
  | some g => simp [transportAfterCheck, hg]

lemma transport_fst {Geo Reg : Type}
    (cr : String → TransportSettings → Option Geo → Reg → Reg)
    (ao : Geo → TransportSettings → CState → Except Err (CState × TransportStatus))
    (probe : Nat → Bool) (e : TransportEngine Geo Reg) (states : List CState)
    (ses : Option ArrayOrFloat)
    (hsz : ∀ cs, ses = some (.array cs) → cs.length = states.length) :
    (transport cr ao probe e states ses).1
      = if e.compiled then e else compileEngine cr "Both" e := by
  rw [transport_eq_afterCheck cr ao probe e states ses hsz]
  exact afterCheck_fst cr ao probe e states ses

/-- Claim C6: compilation is lazy and idempotent.  The engine after a
transport call is the input engine when the compiled flag was set, and the
mode-Both compilation of it otherwise; compiling sets the flag; a
successful compile followed by a second compile with the same mode
argument returns the same engine unchanged (given that the registry update
is idempotent, which is taken from the spec since the material registry
lives outside the binding sources); and a second transport call leaves the
engine untouched, performing no recompilation. -/
theorem c6_compile_lazy_idempotent {Geo Reg : Type}
    (cr : String → TransportSettings → Option Geo → Reg → Reg)
    (ao : Geo → TransportSettings → CState → Except Err (CState × TransportStatus))
    (probe : Nat → Bool) (e e1 : TransportEngine Geo Reg) (states : List CState)
    (ses : Option ArrayOrFloat) (mode : Option String)
    (hidem : ∀ m s g r, cr m s g (cr m s g r) = cr m s g r)
    (hsz : ∀ cs, ses = some (.array cs) → cs.length = states.length) :
    ((transport cr ao probe e states ses).1
        = if e.compiled then e else compileEngine cr "Both" e)
    ∧ (e.compiled = true → (transport cr ao probe e states ses).1 = e)
    ∧ ((compileEngine cr "Both" e).compiled = true)
    ∧ (compile cr mode e = .ok e1 → e1.compiled = true ∧ compile cr mode e1 = .ok e1)
    ∧ ((transport cr ao probe e states ses).1.compiled = true)
    ∧ ((transport cr ao probe ((transport cr ao probe e states ses).1) states ses).1
        = (transport cr ao probe e states ses).1) := by
  have h1 := transport_fst cr ao probe e states ses hsz
  have h5 : (transport cr ao probe e states ses).1.compiled = true := by
    rw [h1]
    by_cases hc : e.compiled
    · simp [hc]
    · simp [hc, compileEngine]
  refine ⟨h1, ?_, rfl, ?_, h5, ?_⟩
  · intro hc
    rw [h1, if_pos hc]
  · intro hok
    cases hr : resolveCompileMode mode e.settings.inner with
    | error er => rw [compile, hr] at hok; cases hok
    | ok m =>
      rw [compile, hr] at hok
      cases hok
      constructor
      · rfl
      · have hr1 : resolveCompileMode mode (compileEngine cr m e).settings.inner
            = .ok m := by
          rw [show (compileEngine cr m e).settings = e.settings from rfl, hr]
        rw [compile, hr1]
        simp [compileEngine, hidem]
  · rw [transport_fst cr ao probe ((transport cr ao probe e states ses).1) states ses hsz,
      if_pos h5]

/-- Witness for c6_compile_lazy_idempotent on the unit engine. -/
theorem c6_compile_lazy_idempotent_witness :
    ((transport unitCompileReg unitAgentOf neverProbe bareEngine [st0] none).1
        = if bareEngine.compiled then bareEngine
          else compileEngine unitCompileReg "Both" bareEngine)
    ∧ (bareEngine.compiled = true →
        (transport unitCompileReg unitAgentOf neverProbe bareEngine [st0] none).1 = bareEngine)
    ∧ ((compileEngine unitCompileReg "Both" bareEngine).compiled = true)
    ∧ (compile unitCompileReg none bareEngine
          = .ok (compileEngine unitCompileReg "Forward" bareEngine) →
        (compileEngine unitCompileReg "Forward" bareEngine).compiled = true
        ∧ compile unitCompileReg none (compileEngine unitCompileReg "Forward" bareEngine)
            = .ok (compileEngine unitCompileReg "Forward" bareEngine))
    ∧ ((transport unitCompileReg unitAgentOf neverProbe bareEngine [st0] none).1.compiled
        = true)
    ∧ ((transport unitCompileReg unitAgentOf neverProbe
          ((transport unitCompileReg unitAgentOf neverProbe bareEngine [st0] none).1)
          [st0] none).1
        = (transport unitCompileReg unitAgentOf neverProbe bareEngine [st0] none).1) :=
  c6_compile_lazy_idempotent unitCompileReg unitAgentOf neverProbe bareEngine
    (compileEngine unitCompileReg "Forward" bareEngine) [st0] none none
    (fun _ _ _ _ => rfl) (by intro cs hcs; cases hcs)

lemma transportLoop_probe_abort
    (agent : TransportSettings → CState → Except Err (CState × TransportStatus))
    (settings : TransportSettings) (probe : Nat → Bool)
    (g : CState → CState × TransportStatus)
    (hg : ∀ st, agent settings st = .ok (g st)) :
    ∀ (l : List CState) (base d : Nat),
    d < l.length →
    (∀ j, j < d → ¬((base + j) % 100 = 0 ∧ probe (base + j) = true)) →
    ((base + d) % 100 = 0 ∧ probe (base + d) = true) →
    transportLoop agent probe none base settings l
      = ((l.take (d + 1)).map (fun s => (g s).1) ++ l.drop (d + 1),
         (l.take (d + 1)).map (fun s => (g s).2),
         .error .keyboardInterrupt) := by
  intro l
  induction l with
  | nil => intro base d hd; simp at hd
  | cons s rest ih =>
    intro base d hd hq hf
    cases d with
    | zero =>
      have hf0 : base % 100 = 0 ∧ probe base = true := by simpa using hf
      simp [transportLoop, constraintAt, hg s, hf0]
    | succ d' =>
      have hq0 : ¬(base % 100 = 0 ∧ probe base = true) := by
        have := hq 0 (Nat.succ_pos d')
        simpa using this
      have hrec := ih (base + 1) d' (by simpa using Nat.lt_of_succ_lt_succ hd)
        (by
          intro j hj
          have h := hq (j + 1) (by omega)
          have hsh : base + 1 + j = base + (j + 1) := by omega
          rw [hsh]
          exact h)
        (by
          have hsh : base + 1 + d' = base + (d' + 1) := by omega
          rw [hsh]
          exact hf)
      simp [transportLoop, constraintAt, hg s, hq0, hrec]

lemma transportLoop_agent_abort
    (agent : TransportSettings → CState → Except Err (CState × TransportStatus))
    (settings : TransportSettings) (probe : Nat → Bool)
    (g : CState → CState × TransportStatus) (er : Err) :
    ∀ (l : List CState) (base d : Nat) (sd : CState),
    (∀ st ∈ l.take d, agent settings st = .ok (g st)) →
    l[d]? = some sd →
    agent settings sd = .error er →
    (∀ j, j < d → ¬((base + j) % 100 = 0 ∧ probe (base + j) = true)) →
    transportLoop agent probe none base settings l
      = ((l.take d).map (fun s => (g s).1) ++ l.drop d,
         (l.take d).map (fun s => (g s).2),
         .error er) := by
  intro l
  induction l with
  | nil => intro base d sd h1 h2; simp at h2
  | cons s rest ih =>
    intro base d sd h1 h2 h3 h4
    cases d with
    | zero =>
      have hsd : s = sd := by simpa using h2
      subst hsd
      simp [transportLoop, constraintAt, h3]
    | succ d' =>
      have hs : agent settings s = .ok (g s) := by
        apply h1
        simp [List.take_succ_cons]
      have hq0 : ¬(base % 100 = 0 ∧ probe base = true) := by
        have := h4 0 (Nat.succ_pos d')
        simpa using this
      have hrec := ih (base + 1) d' sd
        (by
          intro st hst
          apply h1
          simp [List.take_succ_cons]
          exact Or.inr hst)
        (by simpa using h2) h3
        (by
          intro j hj
          have h := h4 (j + 1) (by omega)
          have hsh : base + 1 + j = base + (j + 1) := by omega
          rw [hsh]
          exact h)
      simp [transportLoop, constraintAt, hs, hq0, hrec]

lemma locateLoop_probe_abort {σ : Type} (D : GeometryDefinition)
    (T : GeometryTracer σ) (probe : Nat → Bool) (tr : CState → σ) :
    ∀ (l : List CState) (base d : Nat),
    (∀ s ∈ l, T.reset s.position s.direction = .ok (tr s)) →
    d < l.length →
    (∀ j, j < d → ¬((base + j) % 1000 = 0 ∧ probe (base + j) = true)) →
    ((base + d) % 1000 = 0 ∧ probe (base + d) = true) →
    locateLoop D T probe base l
      = ((l.take (d + 1)).map (fun s => (T.sector (tr s)).getD D.sectors.length),
         .error .keyboardInterrupt) := by
  intro l
  induction l with
  | nil => intro base d _ hd; simp at hd
  | cons s rest ih =>
    intro base d hres hd hq hf
    have hs := hres s (List.mem_cons_self s rest)
    cases d with
    | zero =>
      have hf0 : base % 1000 = 0 ∧ probe base = true := by simpa using hf
      simp [locateLoop, hs, hf0]
    | succ d' =>
      have hq0 : ¬(base % 1000 = 0 ∧ probe base = true) := by
        have := hq 0 (Nat.succ_pos d')
        simpa using this
      have hrec := ih (base + 1) d'
        (fun x hx => hres x (List.mem_cons_of_mem s hx))
        (by simpa using Nat.lt_of_succ_lt_succ hd)
        (by
          intro j hj
          have h := hq (j + 1) (by omega)
          have hsh : base + 1 + j = base + (j + 1) := by omega
          rw [hsh]
          exact h)
        (by
          have hsh : base + 1 + d' = base + (d' + 1) := by omega
          rw [hsh]
          exact hf)
      simp [locateLoop, hs, hq0, hrec]

/-- Claim C7, counterexample: the cancellation probe is polled after the
entry write, at indices that are multiples of the interval.  With a probe
that signals at the very first poll (index 0), transport aborts with the
interrupt but the state and status entries at index 0 have already been
written, contradicting the claim that entries at and above the signal index
are not written. -/
theorem c7_counterexample :
    transport_with exitAgent alwaysProbe c1start.inner [st0] none
      = ([st0], [.Exit], .error .keyboardInterrupt) := by
  rfl

/-- Claim C7, amended: batches process photons in increasing index order
and poll the host cancellation probe after the entry write whenever the
index is a multiple of the interval: 100 for transport, 1000 for locate.
If the probe first signals at poll index i, the batch aborts with the
interrupt failure; entries at indices up to and including i have been
written (transport also keeps the input values of the untouched states
beyond i), and entries above i are not written.  If instead the agent
fails at index i (with no earlier probe signal), entries below i remain
and entries at and above i are not written. -/
theorem c7_cancellation :
    (∀ (agent : TransportSettings → CState → Except Err (CState × TransportStatus))
        (probe : Nat → Bool) (settings0 : TransportSettings)
        (g : CState → CState × TransportStatus) (states : List CState) (i : Nat),
      (∀ st, agent { settings0 with constraint := none } st = .ok (g st)) →
      i < states.length →
      (∀ j, j < i → ¬(j % 100 = 0 ∧ probe j = true)) →
      (i % 100 = 0 ∧ probe i = true) →
      transport_with agent probe settings0 states none
        = ((states.take (i + 1)).map (fun s => (g s).1) ++ states.drop (i + 1),
           (states.take (i + 1)).map (fun s => (g s).2),
           .error .keyboardInterrupt))
    ∧ (∀ (agent : TransportSettings → CState → Except Err (CState × TransportStatus))
        (probe : Nat → Bool) (settings0 : TransportSettings)
        (g : CState → CState × TransportStatus) (states : List CState) (i : Nat)
        (sd : CState) (er : Err),
      (∀ st ∈ states.take i, agent { settings0 with constraint := none } st = .ok (g st)) →
      states[i]? = some sd →
      agent { settings0 with constraint := none } sd = .error er →
      (∀ j, j < i → ¬(j % 100 = 0 ∧ probe j = true)) →
      transport_with agent probe settings0 states none
        = ((states.take i).map (fun s => (g s).1) ++ states.drop i,
           (states.take i).map (fun s => (g s).2),
           .error er))
    ∧ (∀ {σ : Type} (D : GeometryDefinition) (T : GeometryTracer σ) (probe : Nat → Bool)
        (tr : CState → σ) (states : List CState) (i : Nat),
      (∀ s ∈ states, T.reset s.position s.direction = .ok (tr s)) →
      i < states.length →
      (∀ j, j < i → ¬(j % 1000 = 0 ∧ probe j = true)) →
      (i % 1000 = 0 ∧ probe i = true) →
      locate D T probe states
        = ((states.take (i + 1)).map (fun s => (T.sector (tr s)).getD D.sectors.length),
           .error .keyboardInterrupt)) := by
  refine ⟨?_, ?_, ?_⟩
  · intro agent probe settings0 g states i hg hi hq hf
    have h := transportLoop_probe_abort agent { settings0 with constraint := none } probe g hg
      states 0 i hi (by simpa using hq) (by simpa using hf)
    exact h
  · intro agent probe settings0 g states i sd er h1 h2 h3 h4
    have h := transportLoop_agent_abort agent { settings0 with constraint := none } probe g er
      states 0 i sd h1 h2 h3 (by simpa using h4)
    exact h
  · intro σ D T probe tr states i hres hi hq hf
    have h := locateLoop_probe_abort D T probe tr states 0 i hres hi
      (by simpa using hq) (by simpa using hf)
    exact h

/-- Witness for c7_cancellation: an always-signalling probe aborts at poll
index 0, with exactly the first entry written. -/
theorem c7_cancellation_witness :
    transport_with exitAgent alwaysProbe c1start.inner [st0, stBelow] none
      = ([st0, stBelow], [.Exit], .error .keyboardInterrupt)
    ∧ locate oneSectorGeometry posTracer alwaysProbe [st0]
      = ([0], .error .keyboardInterrupt) := by
  constructor
  · have h := c7_cancellation.1 exitAgent alwaysProbe c1start.inner
      (fun s => (s, .Exit)) [st0, stBelow] 0
      (fun st => rfl) (by simp) (fun j hj => absurd hj (by omega)) ⟨rfl, rfl⟩
    simpa using h
  · have h := c7_cancellation.2.2 oneSectorGeometry posTracer alwaysProbe
      (fun s => s.position) [st0] 0
      (fun s _ => rfl) (by simp) (fun j hj => absurd hj (by omega)) ⟨rfl, rfl⟩
    rw [h]
    rfl

lemma traceInner_spec (D : GeometryDefinition) {σ : Type} (T : GeometryTracer σ)
    (dir : Vec3) (density hasL : Bool) :
    ∀ (fuel : Nat) (t : σ) (len : Fl) (grams : List ℚ) (k polls : Nat),
    Except.map (fun r => r.1)
        (traceInner D T neverProbe dir density hasL fuel t len grams k polls)
      = traceSpecLoop D T dir density hasL fuel t len grams := by
  intro fuel
  induction fuel with
  | zero => intro t len grams k polls; rfl
  | succ fuel ih =>
    intro t len grams k polls
    simp only [traceInner, traceSpecLoop]
    cases hsec : T.sector t with
    | none => rfl
    | some sector =>
      cases hstep : T.step t len with
      | error e => rfl
      | ok step_length =>
        by_cases hs : sector < D.sectors.length
        · simp only [dif_pos hs]
          by_cases hb : hasL = true
              ∧ (if hasL then len.sub step_length else len).le0 = true
          · simp only [if_pos hb]
            rfl
          · simp only [if_neg hb]
            cases hupd : T.update t step_length dir with
            | error e => rfl
            | ok t1 =>
              by_cases hk : k + 1 = 1000
              · simp only [if_pos hk, neverProbe, Bool.false_eq_true, if_false]
                exact ih t1 _ _ 0 (polls + 1)
              · simp only [if_neg hk]
                exact ih t1 _ _ (k + 1) polls
        · simp only [dif_neg hs]
          rfl

lemma traceBatch_spec (D : GeometryDefinition) {σ : Type} (T : GeometryTracer σ)
    (lengths : Option ArrayOrFloat) (density : Bool) (fuel : Nat) :
    ∀ (states : List CState) (i k polls : Nat),
    traceBatch D T neverProbe lengths density fuel i k polls states
      = (traceSpecBatch D T lengths density fuel i states).map List.flatten := by
  intro states
  induction states with
  | nil => intro i k polls; rfl
  | cons s rest ih =>
    intro i k polls
    simp only [traceBatch, traceSpecBatch]
    cases hlen : lengthAt lengths i with
    | error e => rfl
    | ok len0 =>
      dsimp only []
      cases hres : T.reset s.position s.direction with
      | error e => rfl
      | ok t =>
        dsimp only []
        have hinner := traceInner_spec D T s.direction density lengths.isSome fuel t len0
          (List.replicate D.sectors.length 0) k polls
        cases hti : traceInner D T neverProbe s.direction density lengths.isSome fuel t len0
            (List.replicate D.sectors.length 0) k polls with
        | error e =>
          rw [hti] at hinner
          simp only [Except.map] at hinner
          rw [← hinner]
          rfl
        | ok r =>
          rw [hti] at hinner
          simp only [Except.map] at hinner
          obtain ⟨grams, k1, polls1⟩ := r
          rw [← hinner]
          dsimp only []
          rw [ih (i + 1) k1 polls1]
          cases hsb : traceSpecBatch D T lengths density fuel (i + 1) rest with
          | error e => rfl
          | ok rows => simp [Except.map]

lemma traceSpecLoop_length (D : GeometryDefinition) {σ : Type} (T : GeometryTracer σ)
    (dir : Vec3) (density hasL : Bool) :
    ∀ (fuel : Nat) (t : σ) (len : Fl) (acc row : List ℚ),
    traceSpecLoop D T dir density hasL fuel t len acc = .ok row →
    row.length = acc.length := by
  intro fuel
  induction fuel with
  | zero => intro t len acc row h; cases h
  | succ fuel ih =>
    intro t len acc row h
    simp only [traceSpecLoop] at h
    cases hsec : T.sector t with
    | none =>
      rw [hsec] at h
      cases h
      rfl
    | some sector =>
      rw [hsec] at h
      dsimp only [] at h
      cases hstep : T.step t len with
      | error e => rw [hstep] at h; cases h
      | ok step_length =>
        rw [hstep] at h
        dsimp only [] at h
        by_cases hs : sector < D.sectors.length
        · rw [dif_pos hs] at h
          by_cases hb : hasL = true
              ∧ (if hasL then len.sub step_length else len).le0 = true
          · rw [if_pos hb] at h
            cases h
            by_cases hd : density <;> simp [hd]
          · rw [if_neg hb] at h
            cases hupd : T.update t step_length dir with
            | error e => rw [hupd] at h; cases h
            | ok t1 =>
              rw [hupd] at h
              have hr := ih t1 _ _ row h
              rw [hr]
              by_cases hd : density <;> simp [hd]
        · rw [dif_neg hs] at h
          cases h

lemma traceSpecBatch_shape (D : GeometryDefinition) {σ : Type} (T : GeometryTracer σ)
    (lengths : Option ArrayOrFloat) (density : Bool) (fuel : Nat) :
    ∀ (states : List CState) (i : Nat) (rows : List (List ℚ)),
    traceSpecBatch D T lengths density fuel i states = .ok rows →
    rows.length = states.length ∧ ∀ row ∈ rows, row.length = D.sectors.length := by
  intro states
  induction states with
  | nil =>
    intro i rows h
    cases h
    exact ⟨rfl, by intro row hr; cases hr⟩
  | cons s rest ih =>
    intro i rows h
    simp only [traceSpecBatch] at h
    cases hlen : lengthAt lengths i with
    | error e => rw [hlen] at h; cases h
    | ok len0 =>
      rw [hlen] at h
      dsimp only [] at h
      cases hres : T.reset s.position s.direction with
      | error e => rw [hres] at h; cases h
      | ok t =>
        rw [hres] at h
        dsimp only [] at h
        cases hloop : traceSpecLoop D T s.direction density lengths.isSome fuel t len0
            (List.replicate D.sectors.length 0) with
        | error e => rw [hloop] at h; cases h
        | ok row =>
          rw [hloop] at h
          dsimp only [] at h
          cases hsb : traceSpecBatch D T lengths density fuel (i + 1) rest with
          | error e => rw [hsb] at h; cases h
          | ok rows1 =>
            rw [hsb] at h
            cases h
            obtain ⟨hlen1, hall⟩ := ih (i + 1) rows1 hsb
            refine ⟨by simp [hlen1], ?_⟩
            intro r hr
            rcases List.mem_cons.mp hr with hr | hr
            · subst hr
              have hl := traceSpecLoop_length D T s.direction density lengths.isSome fuel t
                len0 (List.replicate D.sectors.length 0) r hloop
              simpa using hl
            · exact hall r hr

/-- Claim C2: for every geometry and tracer instance, the trace driver
computes, per state: reset the tracer at the state position and direction,
start per-sector accumulators at zero, loop reading the current sector,
stepping by trace(remaining), accumulating the sector density column depth
at (position, direction, step) when density is requested and the bare step
otherwise, decrementing the remaining length only when a lengths argument
was supplied with a stop at <= 0, then committing with update(step,
direction), until the tracer reports outside; the result is the (N,
num_sectors) matrix of these accumulators, flattened row-major.  Stated
against the claim-level recursion traceSpecBatch with a silent probe and a
shared fuel bound, for inputs passing the lengths size check. -/
theorem c2_trace_refines_spec (D : GeometryDefinition) {σ : Type} (T : GeometryTracer σ)
    (fuel : Nat) (states : List CState) (lengths : Option ArrayOrFloat)
    (density : Option Bool)
    (hsz : ∀ ls, lengths = some (.array ls) → ls.length = states.length) :
    trace D T neverProbe fuel states lengths density
      = (traceSpecBatch D T lengths (density.getD false) fuel 0 states).map List.flatten
    ∧ ∀ out, trace D T neverProbe fuel states lengths density = .ok out →
        out.length = states.length * D.sectors.length := by
  have hmain : trace D T neverProbe fuel states lengths density
      = (traceSpecBatch D T lengths (density.getD false) fuel 0 states).map
          List.flatten := by
    cases hl : lengths with
    | none => exact traceBatch_spec D T none (density.getD false) fuel states 0 0 0
    | some a =>
      cases a with
      | float v =>
        exact traceBatch_spec D T (some (.float v)) (density.getD false) fuel states 0 0 0
      | array ls =>
        have h := hsz ls hl
        rw [trace, if_neg (by rw [h]; exact fun hne => hne rfl)]
        exact traceBatch_spec D T (some (.array ls)) (density.getD false) fuel states 0 0 0
  refine ⟨hmain, ?_⟩
  intro out hout
  rw [hmain] at hout
  cases hsb : traceSpecBatch D T lengths (density.getD false) fuel 0 states with
  | error e => rw [hsb] at hout; cases hout
  | ok rows =>
    rw [hsb] at hout
    cases hout
    obtain ⟨hcount, hall⟩ := traceSpecBatch_shape D T lengths (density.getD false) fuel
      states 0 rows hsb
    rw [List.length_flatten]
    have hmap : rows.map List.length
        = List.replicate rows.length D.sectors.length := by
      have h1 : rows.map List.length
          = List.replicate (rows.map List.length).length D.sectors.length := by
        apply List.eq_replicate_of_mem
        intro b hb
        rcases List.mem_map.mp hb with ⟨row, hrow, rfl⟩
        exact hall row hrow
      simpa using h1
    rw [hmap, List.sum_replicate, smul_eq_mul, hcount]

/-- Witness for c2_trace_refines_spec: one state in a one-sector geometry,
exiting after a single step of length 5. -/
theorem c2_trace_refines_spec_witness :
    trace oneSectorGeometry flagTracer neverProbe 2 [st0] none none
      = (traceSpecBatch oneSectorGeometry flagTracer none false 2 0 [st0]).map List.flatten
    ∧ ∀ out, trace oneSectorGeometry flagTracer neverProbe 2 [st0] none none = .ok out →
        out.length = [st0].length * oneSectorGeometry.sectors.length :=
  c2_trace_refines_spec oneSectorGeometry flagTracer 2 [st0] none none
    (by intro ls h; cases h)

lemma flatten_getElem_fixed {α : Type} :
    ∀ (L : List (List α)) (c i k : Nat) (li : List α),
    (∀ l ∈ L, l.length = c) → k < c → L[i]? = some li →
    L.flatten[i * c + k]? = li[k]? := by
  intro L
  induction L with
  | nil => intro c i k li _ _ h; simp at h
  | cons l rest ih =>
    intro c i k li hlen hk hget
    have hl : l.length = c := hlen l (List.mem_cons_self l rest)
    cases i with
    | zero =>
      have hli : l = li := by simpa using hget
      subst hli
      rw [List.flatten_cons, Nat.zero_mul, Nat.zero_add]
      exact List.getElem?_append_left (by rw [hl]; exact hk)
    | succ i =>
      rw [List.flatten_cons]
      have hidx : (i + 1) * c + k = l.length + (i * c + k) := by rw [hl]; ring
      rw [hidx, List.getElem?_append_right (by omega), Nat.add_sub_cancel_left]
      exact ih c i k li (fun x hx => hlen x (List.mem_cons_of_mem l hx)) hk
        (by simpa using hget)

lemma flatten_length_fixed {α : Type} :
    ∀ (L : List (List α)) (c : Nat), (∀ l ∈ L, l.length = c) →
    L.flatten.length = L.length * c := by
  intro L
  induction L with
  | nil => intro c _; simp
  | cons l rest ih =>
    intro c hlen
    rw [List.flatten_cons]
    simp only [List.length_append, List.length_cons]
    rw [hlen l (List.mem_cons_self l rest),
      ih c (fun x hx => hlen x (List.mem_cons_of_mem l hx))]
    ring

lemma zCell_one_none (cz : ℚ → ℚ → ComputeZResult) (nz : Nat) (a b : ℚ)
    (hz : cz a b = .One none) : zCell cz nz a b = [.nan] := by
  simp only [zCell, hz]
  rfl

lemma zCell_many_get (cz : ℚ → ℚ → ComputeZResult) (nz : Nat) (a b : ℚ)
    (zs : List (Option ℚ)) (k : Nat) (hz : cz a b = .Many zs) (hk : k < nz) :
    (zCell cz nz a b)[k]? = some (unwrapOrNaN (zs.getD k none)) := by
  simp only [zCell, hz]
  rw [List.getElem?_map, List.getElem?_range hk]
  rfl

lemma zCell_length_one (cz : ℚ → ℚ → ComputeZResult) (nz : Nat)
    (hOne : ∀ a b, ∃ z, cz a b = .One z) (a b : ℚ) :
    (zCell cz nz a b).length = 1 := by
  rcases hOne a b with ⟨z, hz⟩
  simp only [zCell, hz]
  rfl

lemma zCell_length_many (cz : ℚ → ℚ → ComputeZResult) (nz : Nat)
    (hMany : ∀ a b, ∃ zs, cz a b = .Many zs) (a b : ℚ) :
    (zCell cz nz a b).length = nz := by
  rcases hMany a b with ⟨zs, hz⟩
  simp only [zCell, hz]
  simp

lemma computeZEntries_get (cz : ℚ → ℚ → ComputeZResult) (nz : Nat)
    (x y : ArrayOrFloat) (n i c k : Nat)
    (hfix : ∀ a b, (zCell cz nz a b).length = c)
    (hi : i < n) (hk : k < c) :
    (computeZEntries cz nz x y n)[i * c + k]?
      = (zCell cz nz (x.getDQ i) (y.getDQ i))[k]? := by
  apply flatten_getElem_fixed
  · intro l hl
    rcases List.mem_map.mp hl with ⟨j, _, rfl⟩
    exact hfix _ _
  · exact hk
  · rw [List.getElem?_map, List.getElem?_range hi]
    rfl

lemma computeZGrid_get (cz : ℚ → ℚ → ComputeZResult) (nz : Nat)
    (x y : ArrayOrFloat) (i j c k : Nat)
    (hfix : ∀ a b, (zCell cz nz a b).length = c)
    (hi : i < y.size) (hj : j < x.size) (hk : k < c) :
    (computeZGrid cz nz x y)[i * (x.size * c) + (j * c + k)]?
      = (zCell cz nz (x.getDQ j) (y.getDQ i))[k]? := by
  have hrow : ∀ i1, (((List.range x.size).map
      (fun j1 => zCell cz nz (x.getDQ j1) (y.getDQ i1))).flatten).length
      = x.size * c := by
    intro i1
    rw [flatten_length_fixed _ c]
    · simp
    · intro l hl
      rcases List.mem_map.mp hl with ⟨j1, _, rfl⟩
      exact hfix _ _
  have hout : (computeZGrid cz nz x y)[i * (x.size * c) + (j * c + k)]?
      = (((List.range x.size).map
          (fun j1 => zCell cz nz (x.getDQ j1) (y.getDQ i))).flatten)[j * c + k]? := by
    apply flatten_getElem_fixed
    · intro l hl
      rcases List.mem_map.mp hl with ⟨i1, _, rfl⟩
      exact hrow i1
    · calc j * c + k < j * c + c := by omega
        _ = (j + 1) * c := by ring
        _ ≤ x.size * c := Nat.mul_le_mul_right c hj
    · rw [List.getElem?_map, List.getElem?_range hi]
      rfl
  rw [hout]
  apply flatten_getElem_fixed
  · intro l hl
    rcases List.mem_map.mp hl with ⟨j1, _, rfl⟩
    exact hfix _ _
  · exact hk
  · rw [List.getElem?_map, List.getElem?_range hj]
    rfl

lemma foldl_optMax_none :
    ∀ (l : List (Option ℚ)), (∀ o ∈ l, o = none) → l.foldl optMax none = none := by
  intro l
  induction l with
  | nil => intro _; rfl
  | cons o rest ih =>
    intro h
    have ho := h o (List.mem_cons_self o rest)
    subst ho
    rw [List.foldl_cons]
    exact ih (fun x hx => h x (List.mem_cons_of_mem _ hx))

/-- Claim C9: the undefined sentinel at the Python interface is NaN, in all
query forms.  Conjuncts: scalar, vector and grid queries write NaN exactly
where the compute_z result is undefined (for single-height objects, under
the source property that the object always answers One; for stratified
objects, always Many with the source index arithmetic nz * (i * nx + j) + k
resp. i * nz + k); a topography map is undefined outside its rectangular
domain; a surface is undefined where no component map is defined; a
stratified z column is undefined at an unbounded interface and at an
interface undefined at the query point. -/
theorem c9_nan_sentinel :
    (∀ (cz : ℚ → ℚ → ComputeZResult) (nz : Nat) (x y : ℚ),
      cz x y = .One none →
      compute_z_vec cz nz (.float x) (.float y) none = .ok [.nan])
    ∧ (∀ (cz : ℚ → ℚ → ComputeZResult) (nz : Nat) (x y : ℚ) (zs : List (Option ℚ)) (k : Nat),
      cz x y = .Many zs → k < nz → zs.getD k none = none →
      ∃ L, compute_z_vec cz nz (.float x) (.float y) none = .ok L
        ∧ L[k]? = some FVal.nan)
    ∧ (∀ (cz : ℚ → ℚ → ComputeZResult) (nz : Nat) (xs ys : List ℚ) (i : Nat),
      (∀ a b, ∃ z, cz a b = .One z) → xs.length = ys.length → i < xs.length →
      cz (xs.getD i 0) (ys.getD i 0) = .One none →
      ∃ L, compute_z_vec cz nz (.array xs) (.array ys) none = .ok L
        ∧ L[i]? = some FVal.nan)
    ∧ (∀ (cz : ℚ → ℚ → ComputeZResult) (nz : Nat) (xs ys : List ℚ)
        (zs : List (Option ℚ)) (i k : Nat),
      (∀ a b, ∃ zs1, cz a b = .Many zs1) → xs.length = ys.length → i < xs.length →
      k < nz → cz (xs.getD i 0) (ys.getD i 0) = .Many zs → zs.getD k none = none →
      ∃ L, compute_z_vec cz nz (.array xs) (.array ys) none = .ok L
        ∧ L[i * nz + k]? = some FVal.nan)
    ∧ (∀ (cz : ℚ → ℚ → ComputeZResult) (nz : Nat) (xs ys : List ℚ) (i j : Nat),
      (∀ a b, ∃ z, cz a b = .One z) → i < ys.length → j < xs.length →
      cz (xs.getD j 0) (ys.getD i 0) = .One none →
      ∃ L, compute_z_vec cz nz (.array xs) (.array ys) (some true) = .ok L
        ∧ L[i * xs.length + j]? = some FVal.nan)
    ∧ (∀ (cz : ℚ → ℚ → ComputeZResult) (nz : Nat) (xs ys : List ℚ)
        (zs : List (Option ℚ)) (i j k : Nat),
      (∀ a b, ∃ zs1, cz a b = .Many zs1) → i < ys.length → j < xs.length → k < nz →
      cz (xs.getD j 0) (ys.getD i 0) = .Many zs → zs.getD k none = none →
      ∃ L, compute_z_vec cz nz (.array xs) (.array ys) (some true) = .ok L
        ∧ L[nz * (i * xs.length + j) + k]? = some FVal.nan)
    ∧ (∀ (m : TopographyMap) (x y : ℚ),
      ¬(m.xmin ≤ x ∧ x ≤ m.xmax ∧ m.ymin ≤ y ∧ y ≤ m.ymax) →
      mapComputeZ m x y = .One none)
    ∧ (∀ (s : TopographySurface) (x y : ℚ),
      (∀ mp ∈ s.maps, mp.z x y = none) →
      surfaceComputeZ s x y = .One none)
    ∧ (∀ (g : StratifiedGeometry) (x y : ℚ) (k : Nat),
      (g.interfaces[k]? = some none
        ∨ ∃ srf, g.interfaces[k]? = some (some srf) ∧ srf.z x y = none) →
      stratifiedComputeZ g x y = .Many (g.z x y) ∧ (g.z x y)[k]? = some none) := by
  have hone : ∀ (cz : ℚ → ℚ → ComputeZResult) nz,
      (∀ a b, ∃ z, cz a b = .One z) → ∀ a b, (zCell cz nz a b).length = 1 :=
    fun cz nz h a b => zCell_length_one cz nz h a b
  have hmany : ∀ (cz : ℚ → ℚ → ComputeZResult) nz,
      (∀ a b, ∃ zs, cz a b = .Many zs) → ∀ a b, (zCell cz nz a b).length = nz :=
    fun cz nz h a b => zCell_length_many cz nz h a b
  refine ⟨?_, ?_, ?_, ?_, ?_, ?_, ?_, ?_, ?_⟩
  · intro cz nz x y hz
    rw [show compute_z_vec cz nz (.float x) (.float y) none = .ok (zCell cz nz x y)
      from rfl]
    rw [zCell_one_none cz nz x y hz]
  · intro cz nz x y zs k hz hk hnone
    refine ⟨zCell cz nz x y, rfl, ?_⟩
    rw [zCell_many_get cz nz x y zs k hz hk, hnone]
    rfl
  · intro cz nz xs ys i hOne hlen hi hz
    refine ⟨computeZEntries cz nz (.array xs) (.array ys) xs.length, ?_, ?_⟩
    · simp [compute_z_vec, hlen]
    · have h := computeZEntries_get cz nz (.array xs) (.array ys) xs.length i 1 0
        (hone cz nz hOne) hi (by omega)
      rw [show i * 1 + 0 = i by omega,
        show (ArrayOrFloat.array xs).getDQ i = xs.getD i 0 from rfl,
        show (ArrayOrFloat.array ys).getDQ i = ys.getD i 0 from rfl] at h
      rw [h, zCell_one_none cz nz _ _ hz]
      rfl
  · intro cz nz xs ys zs i k hMany hlen hi hk hz hnone
    refine ⟨computeZEntries cz nz (.array xs) (.array ys) xs.length, ?_, ?_⟩
    · simp [compute_z_vec, hlen]
    · have h := computeZEntries_get cz nz (.array xs) (.array ys) xs.length i nz k
        (hmany cz nz hMany) hi hk
      rw [show (ArrayOrFloat.array xs).getDQ i = xs.getD i 0 from rfl,
        show (ArrayOrFloat.array ys).getDQ i = ys.getD i 0 from rfl] at h
      rw [h, zCell_many_get cz nz _ _ zs k hz hk, hnone]
      rfl
  · intro cz nz xs ys i j hOne hi hj hz
    refine ⟨computeZGrid cz nz (.array xs) (.array ys), ?_, ?_⟩
    · have hx : (ArrayOrFloat.array xs).size ≠ 0 := by
        simp only [ArrayOrFloat.size]
        omega
      have hy : (ArrayOrFloat.array ys).size ≠ 0 := by
        simp only [ArrayOrFloat.size]
        omega
      simp [compute_z_vec, hx, hy]
    · have h := computeZGrid_get cz nz (.array xs) (.array ys) i j 1 0
        (hone cz nz hOne) (by simpa [ArrayOrFloat.size] using hi)
        (by simpa [ArrayOrFloat.size] using hj) (by omega)
      rw [show i * ((ArrayOrFloat.array xs).size * 1) + (j * 1 + 0)
          = i * xs.length + j by simp only [ArrayOrFloat.size]; ring,
        show (ArrayOrFloat.array xs).getDQ j = xs.getD j 0 from rfl,
        show (ArrayOrFloat.array ys).getDQ i = ys.getD i 0 from rfl] at h
      rw [h, zCell_one_none cz nz _ _ hz]
      rfl
  · intro cz nz xs ys zs i j k hMany hi hj hk hz hnone
    refine ⟨computeZGrid cz nz (.array xs) (.array ys), ?_, ?_⟩
    · have hx : (ArrayOrFloat.array xs).size ≠ 0 := by
        simp only [ArrayOrFloat.size]
        omega
      have hy : (ArrayOrFloat.array ys).size ≠ 0 := by
        simp only [ArrayOrFloat.size]
        omega
      simp [compute_z_vec, hx, hy]
    · have h := computeZGrid_get cz nz (.array xs) (.array ys) i j nz k
        (hmany cz nz hMany) (by simpa [ArrayOrFloat.size] using hi)
        (by simpa [ArrayOrFloat.size] using hj) hk
      rw [show i * ((ArrayOrFloat.array xs).size * nz) + (j * nz + k)
          = nz * (i * xs.length + j) + k by simp only [ArrayOrFloat.size]; ring,
        show (ArrayOrFloat.array xs).getDQ j = xs.getD j 0 from rfl,
        show (ArrayOrFloat.array ys).getDQ i = ys.getD i 0 from rfl] at h
      rw [h, zCell_many_get cz nz _ _ zs k hz hk, hnone]
      rfl
  · intro m x y hout
    rw [mapComputeZ]
    rw [show m.z x y = none from by rw [TopographyMap.z, if_neg hout]]
  · intro s x y hall
    rw [surfaceComputeZ]
    have h : s.z x y = none := by
      rw [TopographySurface.z, foldl_optMax_none]
      · rfl
      · intro o ho
        rcases List.mem_map.mp ho with ⟨mp, hmp, rfl⟩
        exact hall mp hmp
    rw [h]
  · intro g x y k hk
    refine ⟨rfl, ?_⟩
    rcases hk with hk | ⟨srf, hk, hsrf⟩
    · rw [StratifiedGeometry.z, List.getElem?_map, hk]
      rfl
    · rw [StratifiedGeometry.z, List.getElem?_map, hk]
      simp [hsrf]

/-- Witness for c9_nan_sentinel: the point (2, 3) lies outside the unit
square of the map m0, the surface s0f has no component defined there, and
interface 1 of the stratified geometry g0 is unbounded; every query form
writes NaN at the corresponding entry. -/
theorem c9_nan_sentinel_witness :
    (compute_z_vec (mapComputeZ m0) 0 (.float 2) (.float 3) none = .ok [.nan])
    ∧ (∃ L, compute_z_vec (stratifiedComputeZ g0) 2 (.float 2) (.float 3) none = .ok L
        ∧ L[1]? = some FVal.nan)
    ∧ (∃ L, compute_z_vec (mapComputeZ m0) 0 (.array [2]) (.array [3]) none = .ok L
        ∧ L[0]? = some FVal.nan)
    ∧ (∃ L, compute_z_vec (stratifiedComputeZ g0) 2 (.array [2]) (.array [3]) none = .ok L
        ∧ L[0 * 2 + 1]? = some FVal.nan)
    ∧ (∃ L, compute_z_vec (mapComputeZ m0) 0 (.array [2]) (.array [3]) (some true) = .ok L
        ∧ L[0 * [(2 : ℚ)].length + 0]? = some FVal.nan)
    ∧ (∃ L, compute_z_vec (stratifiedComputeZ g0) 2 (.array [2]) (.array [3]) (some true)
          = .ok L
        ∧ L[2 * (0 * [(2 : ℚ)].length + 0) + 1]? = some FVal.nan)
    ∧ mapComputeZ m0 2 3 = .One none
    ∧ surfaceComputeZ s0f 2 3 = .One none
    ∧ (stratifiedComputeZ g0 2 3 = .Many (g0.z 2 3) ∧ (g0.z 2 3)[1]? = some none) := by
  have hmz : m0.z 2 3 = none := by rfl
  have hone : mapComputeZ m0 2 3 = .One none := by rw [mapComputeZ, hmz]
  have hmany : stratifiedComputeZ g0 2 3 = .Many (g0.z 2 3) := rfl
  have hnone1 : (g0.z 2 3).getD 1 none = none := by rfl
  refine ⟨?_, ?_, ?_, ?_, ?_, ?_, ?_, ?_, ?_⟩
  · exact c9_nan_sentinel.1 (mapComputeZ m0) 0 2 3 hone
  · exact c9_nan_sentinel.2.1 (stratifiedComputeZ g0) 2 2 3 (g0.z 2 3) 1 hmany
      (by omega) hnone1
  · exact c9_nan_sentinel.2.2.1 (mapComputeZ m0) 0 [2] [3] 0
      (fun a b => ⟨m0.z a b, rfl⟩) rfl (by simp) hone
  · exact c9_nan_sentinel.2.2.2.1 (stratifiedComputeZ g0) 2 [2] [3] (g0.z 2 3) 0 1
      (fun a b => ⟨g0.z a b, rfl⟩) rfl (by simp) (by omega) hmany hnone1
  · exact c9_nan_sentinel.2.2.2.2.1 (mapComputeZ m0) 0 [2] [3] 0 0
      (fun a b => ⟨m0.z a b, rfl⟩) (by simp) (by simp) hone
  · exact c9_nan_sentinel.2.2.2.2.2.1 (stratifiedComputeZ g0) 2 [2] [3] (g0.z 2 3) 0 0 1
      (fun a b => ⟨g0.z a b, rfl⟩) (by simp) (by simp) (by omega) hmany hnone1
  · exact c9_nan_sentinel.2.2.2.2.2.2.1 m0 2 3 (by decide)
  · refine c9_nan_sentinel.2.2.2.2.2.2.2.1 s0f 2 3 ?_
    intro mp hmp
    have : mp = m0 := by simpa [s0f] using hmp
    rw [this]
    exact hmz
  · exact c9_nan_sentinel.2.2.2.2.2.2.2.2 g0 2 3 1 (Or.inl rfl)

/-- Claim C8, counterexample: the CState struct holds energy (1), position
(3), direction (3), length (1) and weight (1) floats: 9 in total, not the
10 the claim states. -/
theorem c8_counterexample :
    totalFloats cstateFields = 9 ∧ totalFloats cstateFields ≠ 10 := by
  constructor
  · decide
  · decide

/-- Claim C8, amended: the photon state crossing the Python boundary is a
packed record of exactly 9 floats with field order energy, position[3],
direction[3], length, weight; a single build-time float width (8 bytes by
default, 4 under the f32 feature) is used uniformly for every dtype field,
and the repr(C) struct and the numpy structured dtype agree on names,
counts, order and packed byte offsets. -/
theorem c8_state_layout (f32 : Bool) :
    totalFloats cstateFields = 9
    ∧ (dtype_state f32).map (fun e => (e.1, e.2.2)) = cstateFields
    ∧ (∀ e ∈ dtype_state f32, e.2.1 = FLOAT_FORMAT f32)
    ∧ dtype_float f32 = FLOAT_FORMAT f32
    ∧ layoutOffsets (floatWidth f32) ((dtype_state f32).map (fun e => (e.1, e.2.2))) 0
        = layoutOffsets (floatWidth f32) cstateFields 0
    ∧ floatWidth false = 8 ∧ floatWidth true = 4
    ∧ FLOAT_FORMAT false = "f8" ∧ FLOAT_FORMAT true = "f4" := by
  cases f32 <;>
    exact ⟨by decide, by decide, by decide, by decide, by decide, by decide, by decide,
      by decide, by decide⟩

lemma setItem_direction_val (arr : List CState) (v : Vec3) :
    ∀ s ∈ setItem arr (.direction v), s.direction = v := by
  intro s hs
  rcases List.mem_map.mp hs with ⟨s0, _, rfl⟩
  rfl

lemma setItem_energy_val (arr : List CState) (v : ℚ) :
    ∀ s ∈ setItem arr (.energy v), s.energy = v := by
  intro s hs
  rcases List.mem_map.mp hs with ⟨s0, _, rfl⟩
  rfl

lemma setItem_weight_val (arr : List CState) (v : ℚ) :
    ∀ s ∈ setItem arr (.weight v), s.weight = v := by
  intro s hs
  rcases List.mem_map.mp hs with ⟨s0, _, rfl⟩
  rfl

lemma setItem_keeps_direction (arr : List CState) (kw : StateKwarg)
    (hkw : kw.key ≠ "direction") (v : Vec3) (h : ∀ s0 ∈ arr, s0.direction = v) :
    ∀ s ∈ setItem arr kw, s.direction = v := by
  intro s hs
  rcases List.mem_map.mp hs with ⟨s0, hs0, rfl⟩
  cases kw with
  | direction w => exact absurd rfl hkw
  | energy w => exact h s0 hs0
  | position w => exact h s0 hs0
  | length w => exact h s0 hs0
  | weight w => exact h s0 hs0

lemma setItem_keeps_energy (arr : List CState) (kw : StateKwarg)
    (hkw : kw.key ≠ "energy") (v : ℚ) (h : ∀ s0 ∈ arr, s0.energy = v) :
    ∀ s ∈ setItem arr kw, s.energy = v := by
  intro s hs
  rcases List.mem_map.mp hs with ⟨s0, hs0, rfl⟩
  cases kw with
  | energy w => exact absurd rfl hkw
  | direction w => exact h s0 hs0
  | position w => exact h s0 hs0
  | length w => exact h s0 hs0
  | weight w => exact h s0 hs0

/-- Claim C10: the states factory zero-initialises the array and then, for
every field not supplied as a keyword argument, sets direction to (0,0,1),
energy to 1.0 and weight to 1.0; with no keyword arguments every entry is
the state (1, 0, (0,0,1), 0, 1), which satisfies the photon-state
invariants: positive energy, unit direction, non-negative weight, with
position and length zero. -/
theorem c10_states_defaults (shape : Option (List Nat)) (kwargs : List StateKwarg) :
    ((∀ kw ∈ kwargs, kw.key ≠ "direction") →
      ∀ s ∈ states shape kwargs, s.direction = (0, 0, 1))
    ∧ ((∀ kw ∈ kwargs, kw.key ≠ "energy") →
      ∀ s ∈ states shape kwargs, s.energy = 1)
    ∧ ((∀ kw ∈ kwargs, kw.key ≠ "weight") →
      ∀ s ∈ states shape kwargs, s.weight = 1)
    ∧ (∀ s ∈ states shape [],
        s = { energy := 1, position := (0, 0, 0), direction := (0, 0, 1),
              length := 0, weight := 1 }
        ∧ 0 < s.energy ∧ normSq s.direction = 1 ∧ 0 ≤ s.weight
        ∧ s.position = (0, 0, 0) ∧ s.length = 0) := by
  refine ⟨?_, ?_, ?_, ?_⟩
  · intro h
    have hhas : (kwargs.any (fun kw => kw.key == "direction")) = false := by
      simp only [List.any_eq_false]
      intro kw hkw
      simpa using h kw hkw
    simp only [states, hhas, Bool.false_eq_true, if_false]
    by_cases he : (kwargs.any (fun kw => kw.key == "energy")) = true
    · simp only [he, if_true]
      by_cases hw : (kwargs.any (fun kw => kw.key == "weight")) = true
      · simp only [hw, if_true]
        exact setItem_direction_val _ _
      · simp only [hw, Bool.false_eq_true, if_false]
        exact setItem_keeps_direction _ _ (by decide) _ (setItem_direction_val _ _)
    · simp only [he, Bool.false_eq_true, if_false]
      by_cases hw : (kwargs.any (fun kw => kw.key == "weight")) = true
      · simp only [hw, if_true]
        exact setItem_keeps_direction _ _ (by decide) _ (setItem_direction_val _ _)
      · simp only [hw, Bool.false_eq_true, if_false]
        exact setItem_keeps_direction _ _ (by decide) _
          (setItem_keeps_direction _ _ (by decide) _ (setItem_direction_val _ _))
  · intro h
    have hhas : (kwargs.any (fun kw => kw.key == "energy")) = false := by
      simp only [List.any_eq_false]
      intro kw hkw
      simpa using h kw hkw
    simp only [states, hhas, Bool.false_eq_true, if_false]
    by_cases hd : (kwargs.any (fun kw => kw.key == "direction")) = true <;>
      by_cases hw : (kwargs.any (fun kw => kw.key == "weight")) = true <;>
      simp only [hd, hw, if_true, Bool.false_eq_true, if_false]
    · exact setItem_energy_val _ _
    · exact setItem_keeps_energy _ _ (by decide) _ (setItem_energy_val _ _)
    · exact setItem_energy_val _ _
    · exact setItem_keeps_energy _ _ (by decide) _ (setItem_energy_val _ _)
  · intro h
    have hhas : (kwargs.any (fun kw => kw.key == "weight")) = false := by
      simp only [List.any_eq_false]
      intro kw hkw
      simpa using h kw hkw
    simp only [states, hhas, Bool.false_eq_true, if_false]
    by_cases hd : (kwargs.any (fun kw => kw.key == "direction")) = true <;>
      by_cases he : (kwargs.any (fun kw => kw.key == "energy")) = true <;>
      simp only [hd, he, if_true, Bool.false_eq_true, if_false] <;>
      exact setItem_weight_val _ _
  · intro s hs
    simp only [states, List.any_nil, Bool.false_eq_true, if_false, List.foldl_nil] at hs
    rcases List.mem_map.mp hs with ⟨s1, hs1, rfl⟩
    rcases List.mem_map.mp hs1 with ⟨s2, hs2, rfl⟩
    rcases List.mem_map.mp hs2 with ⟨s3, hs3, rfl⟩
    have hz : s3 = zeroState := (List.eq_of_mem_replicate hs3)
    subst hz
    refine ⟨rfl, by norm_num, by norm_num [normSq], by norm_num, rfl, rfl⟩

/-- Witness for c10_states_defaults at shape [2] with a position keyword
argument. -/
theorem c10_states_defaults_witness :
    ((∀ kw ∈ [StateKwarg.position (4, 5, 6)], kw.key ≠ "direction") →
      ∀ s ∈ states (some [2]) [StateKwarg.position (4, 5, 6)], s.direction = (0, 0, 1))
    ∧ ((∀ kw ∈ [StateKwarg.position (4, 5, 6)], kw.key ≠ "energy") →
      ∀ s ∈ states (some [2]) [StateKwarg.position (4, 5, 6)], s.energy = 1)
    ∧ ((∀ kw ∈ [StateKwarg.position (4, 5, 6)], kw.key ≠ "weight") →
      ∀ s ∈ states (some [2]) [StateKwarg.position (4, 5, 6)], s.weight = 1)
    ∧ (∀ s ∈ states (some [2]) [],
        s = { energy := 1, position := (0, 0, 0), direction := (0, 0, 1),
              length := 0, weight := 1 }
        ∧ 0 < s.energy ∧ normSq s.direction = 1 ∧ 0 ≤ s.weight
        ∧ s.position = (0, 0, 0) ∧ s.length = 0) :=
  c10_states_defaults (some [2]) [StateKwarg.position (4, 5, 6)]

/-- Claim C5: __getstate__ writes exactly the random stream, the material
registry, the inner transport settings and the compiled flag, in that
order; __setstate__ restores all four and re-derives volume_sources from
whether the decoded constraint is null, keeping the geometry of the engine
being filled; serialise, deserialise, serialise yields a byte-identical
stream.  The component codecs stand for the message-pack Serialize and
Deserialize implementations, assumed to round-trip. -/
theorem c5_pickle_roundtrip {τ P R G S : Type}
    (encR : R → List τ) (encG : G → List τ) (encS : S → List τ) (encB : Bool → List τ)
    (decR : List τ → Option (R × List τ)) (decG : List τ → Option (G × List τ))
    (decS : List τ → Option (S × List τ)) (decB : List τ → Option (Bool × List τ))
    (constraintOf : S → Option ℚ)
    (hR : ∀ x rest, decR (encR x ++ rest) = some (x, rest))
    (hG : ∀ x rest, decG (encG x ++ rest) = some (x, rest))
    (hS : ∀ x rest, decS (encS x ++ rest) = some (x, rest))
    (hB : ∀ x rest, decB (encB x ++ rest) = some (x, rest))
    (e e0 : SerEngine P R G S) :
    getstate encR encG encS encB e0
      = encR e0.random ++ encG e0.registry ++ encS e0.settings ++ encB e0.compiled
    ∧ setstate decR decG decS decB constraintOf e (getstate encR encG encS encB e0)
      = .ok { geometry := e.geometry, random := e0.random, registry := e0.registry,
              settings := e0.settings,
              volume_sources := (constraintOf e0.settings).isSome,
              compiled := e0.compiled }
    ∧ ∀ e1, setstate decR decG decS decB constraintOf e (getstate encR encG encS encB e0)
        = .ok e1 →
      getstate encR encG encS encB e1 = getstate encR encG encS encB e0 := by
  have hB1 : ∀ x, decB (encB x) = some (x, []) := by
    intro x
    have h := hB x []
    simpa using h
  have hset : setstate decR decG decS decB constraintOf e (getstate encR encG encS encB e0)
      = .ok { geometry := e.geometry, random := e0.random, registry := e0.registry,
              settings := e0.settings,
              volume_sources := (constraintOf e0.settings).isSome,
              compiled := e0.compiled } := by
    simp only [setstate, getstate, List.append_assoc, hR, hG, hS, hB1]
  refine ⟨rfl, hset, ?_⟩
  intro e1 h1
  rw [hset] at h1
  cases h1
  rfl

/-- Witness for c5_pickle_roundtrip with one-token codecs over natural
streams and a Boolean settings type. -/
theorem c5_pickle_roundtrip_witness :
    getstate natEnc natEnc boolEnc boolEnc serE0
      = natEnc serE0.random ++ natEnc serE0.registry ++ boolEnc serE0.settings
        ++ boolEnc serE0.compiled
    ∧ setstate natDec natDec boolDec boolDec boolConstraintOf serE
        (getstate natEnc natEnc boolEnc boolEnc serE0)
      = .ok { geometry := serE.geometry, random := serE0.random,
              registry := serE0.registry, settings := serE0.settings,
              volume_sources := (boolConstraintOf serE0.settings).isSome,
              compiled := serE0.compiled }
    ∧ ∀ e1, setstate natDec natDec boolDec boolDec boolConstraintOf serE
          (getstate natEnc natEnc boolEnc boolEnc serE0) = .ok e1 →
        getstate natEnc natEnc boolEnc boolEnc e1
          = getstate natEnc natEnc boolEnc boolEnc serE0 :=
  c5_pickle_roundtrip natEnc natEnc boolEnc boolEnc natDec natDec boolDec boolDec
    boolConstraintOf
    (fun x rest => rfl) (fun x rest => rfl)
    (fun x rest => by cases x <;> rfl) (fun x rest => by cases x <;> rfl)
    serE serE0

end Goupil
